import Mathlib

/-!
# Verification of the linq-resy-agent repository

Shallow embedding, in Lean 4, of the parts of the `linq-resy-agent`
TypeScript repository that its specification's claims are about:

* the DynamoDB-backed key/value stores (`src/db/dynamodb.ts`), modelled as
  association lists keyed by strings;
* the conversation store (`src/state/conversation.ts`);
* the auth database: credentials, signed-out / just-onboarded flags, pending
  OTP / pending challenge records, magic-link auth tokens (`src/auth/db.ts`);
* the user-context loader (`src/auth/userContext.ts`, async variant);
* the credential encryption layer (`src/auth/encryption.ts`), with the
  external `node:crypto` AES-256-GCM primitive, base64 and JSON modelled as
  an abstract model satisfying the standard AEAD contract;
* the Claude tool-orchestration loop and the group-chat classifier parsing
  (`src/claude/client.ts`);
* the Resy booking slot selection (`src/bookings/client.ts`);
* the message-processing pipeline dispatch (`src/db/dynamodb.ts`, Lambda
  processor `processRecord`).

External collaborators (DynamoDB itself, the network, the LLM, the Resy API,
the JS regular-expression engine) are modelled as oracles/inputs; everything
else is translated directly from the source.
-/

set_option maxRecDepth 4096

namespace ResyAgent

/-! ## Association-list store (model of the DynamoDB single-table helpers)

`getItem`/`putItem`/`deleteItem` from `src/db/dynamodb.ts` over a fixed sort
key become `alookup`/`aput`/`adel` over an association list keyed by the
partition-key string. `aput` overwrites (DynamoDB `PutCommand` replaces the
item). -/

def alookup {α : Type} : List (String × α) → String → Option α
  | [], _ => none
  | (k, v) :: rest, key => if k = key then some v else alookup rest key

def aput {α : Type} (l : List (String × α)) (key : String) (v : α) : List (String × α) :=
  (key, v) :: l.filter (fun e => e.1 ≠ key)

def adel {α : Type} (l : List (String × α)) (key : String) : List (String × α) :=
  l.filter (fun e => e.1 ≠ key)

@[simp] theorem alookup_adel_self {α : Type} (l : List (String × α)) (key : String) :
    alookup (adel l key) key = none := by
  induction l with
  | nil => rfl
  | cons e rest ih =>
    rw [adel, List.filter_cons]
    by_cases h : e.1 = key
    · simpa [h, adel] using ih
    · simpa [h, alookup, adel] using ih

theorem alookup_adel_ne {α : Type} (l : List (String × α)) (key key' : String)
    (h : key ≠ key') : alookup (adel l key) key' = alookup l key' := by
  induction l with
  | nil => rfl
  | cons e rest ih =>
    rw [adel, List.filter_cons]
    by_cases he : e.1 = key
    · simpa [he, alookup, h, adel] using ih
    · by_cases he' : e.1 = key'
      · simp [he, alookup, he', Ne.symm h]
      · simpa [he, alookup, he', adel] using ih

@[simp] theorem alookup_aput_self {α : Type} (l : List (String × α)) (key : String) (v : α) :
    alookup (aput l key v) key = some v := by
  simp [aput, alookup]

theorem alookup_aput_ne {α : Type} (l : List (String × α)) (key key' : String) (v : α)
    (h : key ≠ key') : alookup (aput l key v) key' = alookup l key' := by
  have step : alookup (aput l key v) key' = alookup (adel l key) key' := by
    simp [aput, adel, alookup, if_neg h]
  rw [step, alookup_adel_ne _ _ _ h]

/-! ## Conversation store (`src/state/conversation.ts`)

Both variants in the source (DynamoDB-backed and in-memory) implement
`addMessage` the same way: push the new message, then `slice(-MAX_MESSAGES)`.
The `lastActive` timestamp is not modelled: no pipeline code reads it (expiry
is enforced by the store's TTL, an external collaborator). -/

def MAX_MESSAGES : Nat := 50

inductive Role where
  | user
  | assistant
deriving DecidableEq

structure StoredMessage where
  role : Role
  content : String
  handle : Option String
deriving DecidableEq

structure ConversationRecord where
  messages : List StoredMessage
deriving DecidableEq

abbrev ConvStore := List (String × ConversationRecord)

def getConversation (s : ConvStore) (chatId : String) : List StoredMessage :=
  match alookup s chatId with
  | none => []
  | some r => r.messages

/-- `const msg = { role, content }; if (handle) msg.handle = handle;` —
a falsy (empty) handle is not stored. -/
def mkStoredMessage (role : Role) (content : String) (handle : Option String) : StoredMessage :=
  { role, content
    handle := match handle with
      | some h => if h = "" then none else some h
      | none => none }

/-- JavaScript `array.slice(-n)`: the last `n` elements (all of them when the
array is shorter). -/
def sliceLast {α : Type} (l : List α) (n : Nat) : List α :=
  l.drop (l.length - n)

def addMessage (s : ConvStore) (chatId : String) (role : Role) (content : String)
    (handle : Option String) : ConvStore :=
  let messages := getConversation s chatId
  let trimmed := sliceLast (messages ++ [mkStoredMessage role content handle]) MAX_MESSAGES
  aput s chatId { messages := trimmed }

/-- One `addMessage` call, as data (for quantifying over call sequences). -/
structure AddMessageCall where
  chatId : String
  role : Role
  content : String
  handle : Option String

def applyAddMessage (s : ConvStore) (c : AddMessageCall) : ConvStore :=
  addMessage s c.chatId c.role c.content c.handle

theorem sliceLast_length_le {α : Type} (l : List α) (n : Nat) :
    (sliceLast l n).length ≤ n := by
  simp only [sliceLast, List.length_drop]
  omega

theorem getConversation_addMessage_self (s : ConvStore) (chatId : String) (role : Role)
    (content : String) (handle : Option String) :
    getConversation (addMessage s chatId role content handle) chatId
      = sliceLast (getConversation s chatId ++ [mkStoredMessage role content handle])
          MAX_MESSAGES := by
  simp [addMessage, getConversation, alookup_aput_self]

theorem getConversation_addMessage_ne (s : ConvStore) (chatId chatId' : String) (role : Role)
    (content : String) (handle : Option String) (h : chatId ≠ chatId') :
    getConversation (addMessage s chatId role content handle) chatId'
      = getConversation s chatId' := by
  simp [addMessage, getConversation, alookup_aput_ne _ _ _ _ h]

theorem length_getConversation_addMessage (s : ConvStore) (chatId : String) (role : Role)
    (content : String) (handle : Option String) :
    (getConversation (addMessage s chatId role content handle) chatId).length
      ≤ MAX_MESSAGES := by
  rw [getConversation_addMessage_self]
  exact sliceLast_length_le _ _

theorem length_foldl_addMessage_le (calls : List AddMessageCall) (s : ConvStore)
    (chatId : String) (h : (getConversation s chatId).length ≤ MAX_MESSAGES) :
    (getConversation (calls.foldl applyAddMessage s) chatId).length ≤ MAX_MESSAGES := by
  induction calls generalizing s with
  | nil => exact h
  | cons c rest ih =>
    apply ih
    by_cases hc : c.chatId = chatId
    · subst hc
      exact length_getConversation_addMessage _ _ _ _ _
    · rw [applyAddMessage, getConversation_addMessage_ne _ _ _ _ _ _ hc]
      exact h

/-- Claim C7. For every chat and every sequence of `addMessage` calls
(starting from an empty store), the stored conversation never exceeds
`MAX_MESSAGES = 50` entries; when a message is appended to a full (50-entry)
conversation the oldest entry is dropped and the new entry is last, the
surviving entries keeping their order and content; and below the cap the new
entry is simply appended. -/
theorem conversation_history_capped :
    (∀ (calls : List AddMessageCall) (chatId : String),
      (getConversation (calls.foldl applyAddMessage ([] : ConvStore)) chatId).length
        ≤ MAX_MESSAGES)
  ∧ (∀ (s : ConvStore) (chatId : String) (role : Role) (content : String)
      (handle : Option String) (msgs : List StoredMessage),
      getConversation s chatId = msgs → msgs.length = MAX_MESSAGES →
      getConversation (addMessage s chatId role content handle) chatId
        = msgs.tail ++ [mkStoredMessage role content handle])
  ∧ (∀ (s : ConvStore) (chatId : String) (role : Role) (content : String)
      (handle : Option String) (msgs : List StoredMessage),
      getConversation s chatId = msgs → msgs.length < MAX_MESSAGES →
      getConversation (addMessage s chatId role content handle) chatId
        = msgs ++ [mkStoredMessage role content handle]) := by
  refine ⟨?_, ?_, ?_⟩
  · intro calls chatId
    apply length_foldl_addMessage_le
    simp [getConversation, alookup]
  · intro s chatId role content handle msgs hs hlen
    rw [getConversation_addMessage_self, hs]
    simp only [sliceLast, List.length_append, List.length_singleton, hlen]
    have : MAX_MESSAGES + 1 - MAX_MESSAGES = 1 := by omega
    rw [this]
    cases msgs with
    | nil => simp [MAX_MESSAGES] at hlen
    | cons m rest => simp
  · intro s chatId role content handle msgs hs hlen
    rw [getConversation_addMessage_self, hs]
    simp only [sliceLast, List.length_append, List.length_singleton]
    have : msgs.length + 1 - MAX_MESSAGES = 0 := by omega
    rw [this]
    simp

/-- A concrete 50-message conversation with pairwise-distinct contents. -/
def fullConversation : List StoredMessage :=
  (List.range 50).map (fun i => mkStoredMessage Role.user (toString i) none)

/-- Witness for `conversation_history_capped`: a concrete 50-message
conversation; appending message 51 drops the oldest entry (content `"0"`)
and appends the new one. -/
theorem conversation_history_capped_witness :
    getConversation
        (addMessage [("chat1", ⟨fullConversation⟩)] "chat1" Role.user "newest" none) "chat1"
      = fullConversation.tail ++ [mkStoredMessage Role.user "newest" none] := by
  apply conversation_history_capped.2.1
  · simp [getConversation, alookup]
  · simp [MAX_MESSAGES, fullConversation]

/-! ## Magic-link auth tokens (`src/auth/db.ts`, `AUTHTOKEN#` keys)

Timestamps are epoch milliseconds (`Date` values compare numerically).
`markAuthTokenUsed` uses a DynamoDB `UpdateCommand`; when the record is
absent the update would create a partial item carrying only `used: true`,
which also fails every later verification — the embedding leaves the store
unchanged in that case, which gives the same `verifyAuthToken` results. -/

structure AuthTokenRecord where
  phoneNumber : String
  chatId : String
  expiresAt : Nat
  used : Bool
deriving DecidableEq

abbrev TokenStore := List (String × AuthTokenRecord)

def createAuthToken (s : TokenStore) (phoneNumber chatId token : String)
    (now ttlMinutes : Nat) : TokenStore :=
  aput s token
    { phoneNumber, chatId, expiresAt := now + ttlMinutes * 60 * 1000, used := false }

def verifyAuthToken (s : TokenStore) (token : String) (now : Nat) : Option String :=
  match alookup s token with
  | none => none
  | some r =>
    if r.used then none
    else if r.expiresAt < now then none
    else some r.phoneNumber

def markAuthTokenUsed (s : TokenStore) (token : String) : TokenStore :=
  match alookup s token with
  | some r => aput s token { r with used := true }
  | none => s

/-- The operations `src/auth/db.ts` exposes on the `AUTHTOKEN#` key space. -/
inductive TokenOp where
  | create (phoneNumber chatId token : String) (now ttlMinutes : Nat)
  | markUsed (token : String)

def applyTokenOp (s : TokenStore) : TokenOp → TokenStore
  | .create phoneNumber chatId token now ttlMinutes =>
      createAuthToken s phoneNumber chatId token now ttlMinutes
  | .markUsed token => markAuthTokenUsed s token

/-- Does this operation (re-)create a record for `token`? -/
def TokenOp.creates (op : TokenOp) (token : String) : Bool :=
  match op with
  | .create _ _ t _ _ => t = token
  | .markUsed _ => false

/-- "Dead" token: either absent or marked used. Once dead, always fails
verification. -/
def tokenDead (s : TokenStore) (token : String) : Prop :=
  alookup s token = none ∨ ∃ r, alookup s token = some r ∧ r.used = true

theorem verifyAuthToken_of_dead (s : TokenStore) (token : String) (now : Nat)
    (h : tokenDead s token) : verifyAuthToken s token now = none := by
  rcases h with h | ⟨r, hr, hu⟩
  · simp [verifyAuthToken, h]
  · simp [verifyAuthToken, hr, hu]

theorem tokenDead_markAuthTokenUsed (s : TokenStore) (token : String) :
    tokenDead (markAuthTokenUsed s token) token := by
  rw [markAuthTokenUsed]
  cases h : alookup s token with
  | none => exact Or.inl h
  | some r => exact Or.inr ⟨_, alookup_aput_self _ _ _, rfl⟩

theorem tokenDead_preserved (s : TokenStore) (token : String) (op : TokenOp)
    (hop : op.creates token = false) (h : tokenDead s token) :
    tokenDead (applyTokenOp s op) token := by
  cases op with
  | create p c t n ttl =>
    have ht : t ≠ token := by
      intro he
      simp [TokenOp.creates, he] at hop
    rcases h with h | ⟨r, hr, hu⟩
    · exact Or.inl (by rw [applyTokenOp, createAuthToken, alookup_aput_ne _ _ _ _ ht]; exact h)
    · exact Or.inr ⟨r, by rw [applyTokenOp, createAuthToken, alookup_aput_ne _ _ _ _ ht]; exact hr, hu⟩
  | markUsed t =>
    rw [applyTokenOp, markAuthTokenUsed]
    cases hl : alookup s t with
    | none => exact h
    | some r =>
      by_cases ht : t = token
      · subst ht
        exact Or.inr ⟨_, alookup_aput_self _ _ _, rfl⟩
      · rcases h with h | ⟨r', hr', hu⟩
        · exact Or.inl (by rw [alookup_aput_ne _ _ _ _ ht]; exact h)
        · exact Or.inr ⟨r', by rw [alookup_aput_ne _ _ _ _ ht]; exact hr', hu⟩

theorem tokenDead_foldl (ops : List TokenOp) (s : TokenStore) (token : String)
    (hops : ∀ op ∈ ops, op.creates token = false) (h : tokenDead s token) :
    tokenDead (ops.foldl applyTokenOp s) token := by
  induction ops generalizing s with
  | nil => exact h
  | cons op rest ih =>
    exact ih _ (fun o ho => hops o (List.mem_cons_of_mem _ ho))
      (tokenDead_preserved _ _ _ (hops op (List.mem_cons_self _ _)) h)

/-- Claim C4. Auth tokens are single-use and expiring: an unknown token
always fails verification (and `verifyAuthToken` is total — it never
throws); a stored token whose `expiresAt` is in the past fails verification
even if never marked used; and once `markAuthTokenUsed` has run, every
subsequent `verifyAuthToken` call on that token returns `none`, whatever
further token operations occur — short of re-creating the very same token
string. -/
theorem authToken_single_use_and_expiring :
    (∀ (s : TokenStore) (token : String) (now : Nat),
      alookup s token = none → verifyAuthToken s token now = none)
  ∧ (∀ (s : TokenStore) (token : String) (now : Nat) (r : AuthTokenRecord),
      alookup s token = some r → r.expiresAt < now → verifyAuthToken s token now = none)
  ∧ (∀ (s : TokenStore) (token : String) (ops : List TokenOp) (now : Nat),
      (∀ op ∈ ops, op.creates token = false) →
      verifyAuthToken (ops.foldl applyTokenOp (markAuthTokenUsed s token)) token now
        = none) := by
  refine ⟨?_, ?_, ?_⟩
  · intro s token now h
    simp [verifyAuthToken, h]
  · intro s token now r hr hexp
    simp only [verifyAuthToken, hr]
    by_cases hu : r.used
    · simp [hu]
    · simp [hu, hexp]
  · intro s token ops now hops
    exact verifyAuthToken_of_dead _ _ _
      (tokenDead_foldl _ _ _ hops (tokenDead_markAuthTokenUsed _ _))

/-- Witness for `authToken_single_use_and_expiring`: a concrete store holding
one fresh token; the unknown-token, expired-token and used-token parts are
instantiated on it (the op sequence re-creates a *different* token). -/
theorem authToken_single_use_and_expiring_witness :
    verifyAuthToken [] "tokA" 1000 = none
  ∧ verifyAuthToken (createAuthToken [] "+15550001111" "chat1" "tokB" 0 15) "tokB"
      (15 * 60 * 1000 + 1) = none
  ∧ verifyAuthToken
      ([TokenOp.create "+15550002222" "chat2" "tokC" 50 15].foldl applyTokenOp
        (markAuthTokenUsed (createAuthToken [] "+15550001111" "chat1" "tokB" 0 15) "tokB"))
      "tokB" 60 = none := by
  refine ⟨?_, ?_, ?_⟩
  · exact authToken_single_use_and_expiring.1 _ _ _ (by decide)
  · exact authToken_single_use_and_expiring.2.1 _ _ _
      { phoneNumber := "+15550001111", chatId := "chat1",
        expiresAt := 15 * 60 * 1000, used := false }
      (by decide) (by decide)
  · exact authToken_single_use_and_expiring.2.2 _ _ _ _ (by decide)

/-! ## Auth database (`src/auth/db.ts`, `USER#` keys)

Per-phone records: user profile, encrypted credentials, signed-out marker,
just-onboarded marker (10-minute TTL, consumed read-and-delete), pending OTP
(5-minute TTL), pending challenge (10-minute TTL). TTL expiry is enforced by
DynamoDB (an external collaborator) and is not modelled. Timestamps
(`createdAt`, `lastActive`, `sentAt`) are written but never read by any
pipeline code, so they are omitted from the records.

Credentials are stored through `encrypt` and read back through `decrypt`
(with decryption failure mapped to `null`); the encryption layer is verified
separately below, where `decrypt (encrypt x) = x` is proved in both key
modes, so here the store holds the payloads themselves. -/

structure BookingsCredentials where
  resyAuthToken : String
deriving DecidableEq

structure UserRecord where
  onboardingComplete : Bool
deriving DecidableEq

structure RequiredField where
  name : String
  type : String
  message : String
deriving DecidableEq

structure PendingChallenge where
  chatId : String
  claimToken : String
  challengeId : String
  mobileNumber : String
  firstName : String
  isNewUser : Bool
  requiredFields : List RequiredField
deriving DecidableEq

structure AuthDB where
  users : List (String × UserRecord)
  credentials : List (String × BookingsCredentials)
  signedOut : List (String × Unit)
  justOnboarded : List (String × Unit)
  pendingOTP : List (String × String)
  pendingChallenge : List (String × PendingChallenge)
deriving DecidableEq

def emptyAuthDB : AuthDB :=
  { users := [], credentials := [], signedOut := [], justOnboarded := []
    pendingOTP := [], pendingChallenge := [] }

def getUser (s : AuthDB) (p : String) : Option UserRecord :=
  alookup s.users p

def createUser (s : AuthDB) (p : String) : AuthDB :=
  { s with users := aput s.users p { onboardingComplete := false } }

/-- `updateLastActive` only touches the (unmodelled) timestamp. -/
def updateLastActive (s : AuthDB) (_p : String) : AuthDB := s

/-- DynamoDB `UpdateCommand` on the `PROFILE` item: sets the field, creating
the item when absent. -/
def updateOnboardingComplete (s : AuthDB) (p : String) (b : Bool) : AuthDB :=
  { s with users := aput s.users p { onboardingComplete := b } }

def getCredentials (s : AuthDB) (p : String) : Option BookingsCredentials :=
  alookup s.credentials p

def setCredentials (s : AuthDB) (p : String) (c : BookingsCredentials) : AuthDB :=
  let s := { s with credentials := aput s.credentials p c }
  let s := updateOnboardingComplete s p true
  { s with justOnboarded := aput s.justOnboarded p () }

def clearCredentials (s : AuthDB) (p : String) : AuthDB :=
  let s := { s with credentials := adel s.credentials p }
  let s := { s with signedOut := aput s.signedOut p () }
  updateOnboardingComplete s p false

def isSignedOut (s : AuthDB) (p : String) : Bool :=
  (alookup s.signedOut p).isSome

def clearSignedOut (s : AuthDB) (p : String) : AuthDB :=
  { s with signedOut := adel s.signedOut p }

def consumeJustOnboarded (s : AuthDB) (p : String) : Bool × AuthDB :=
  match alookup s.justOnboarded p with
  | some _ => (true, { s with justOnboarded := adel s.justOnboarded p })
  | none => (false, s)

def setPendingOTP (s : AuthDB) (p chatId : String) : AuthDB :=
  { s with pendingOTP := aput s.pendingOTP p chatId }

def getPendingOTP (s : AuthDB) (p : String) : Option String :=
  alookup s.pendingOTP p

def clearPendingOTP (s : AuthDB) (p : String) : AuthDB :=
  { s with pendingOTP := adel s.pendingOTP p }

def setPendingChallenge (s : AuthDB) (p : String) (d : PendingChallenge) : AuthDB :=
  { s with pendingChallenge := aput s.pendingChallenge p d }

def getPendingChallenge (s : AuthDB) (p : String) : Option PendingChallenge :=
  alookup s.pendingChallenge p

def clearPendingChallenge (s : AuthDB) (p : String) : AuthDB :=
  { s with pendingChallenge := adel s.pendingChallenge p }

/-! ## User context loader (`src/auth/userContext.ts`, async variant)

`loadUserContext` resolves per-user credentials first; otherwise, when the
env-level `RESY_AUTH_TOKEN` is configured (non-empty string — JS truthiness)
AND the user has not explicitly signed out, it synthesizes a user record if
needed and returns the fallback credential; otherwise `null`. -/

structure UserContext where
  user : UserRecord
  bookingsCredentials : BookingsCredentials
deriving DecidableEq

def loadUserContext (env : String) (s : AuthDB) (p : String) :
    Option UserContext × AuthDB :=
  match getUser s p with
  | some u =>
    match getCredentials s p with
    | some creds => (some { user := u, bookingsCredentials := creds }, updateLastActive s p)
    | none =>
      if env ≠ "" ∧ isSignedOut s p = false then
        (some { user := u, bookingsCredentials := { resyAuthToken := env } },
          updateLastActive s p)
      else (none, s)
  | none =>
    if env ≠ "" ∧ isSignedOut s p = false then
      let s' := createUser s p
      (some { user := { onboardingComplete := false },
              bookingsCredentials := { resyAuthToken := env } },
        updateLastActive s' p)
    else (none, s)

/-- The state-changing operations `src/auth/db.ts` (plus the context loader)
exposes on the `USER#` key space, as data — for quantifying over sequences
of calls. -/
inductive AuthOp where
  | createUser (p : String)
  | updateLastActive (p : String)
  | setCredentials (p : String) (c : BookingsCredentials)
  | clearCredentials (p : String)
  | clearSignedOut (p : String)
  | consumeJustOnboarded (p : String)
  | setPendingOTP (p chatId : String)
  | clearPendingOTP (p : String)
  | setPendingChallenge (p : String) (d : PendingChallenge)
  | clearPendingChallenge (p : String)
  | loadUserContext (env p : String)

def applyAuthOp (s : AuthDB) : AuthOp → AuthDB
  | .createUser p => createUser s p
  | .updateLastActive p => updateLastActive s p
  | .setCredentials p c => setCredentials s p c
  | .clearCredentials p => clearCredentials s p
  | .clearSignedOut p => clearSignedOut s p
  | .consumeJustOnboarded p => (consumeJustOnboarded s p).2
  | .setPendingOTP p chatId => setPendingOTP s p chatId
  | .clearPendingOTP p => clearPendingOTP s p
  | .setPendingChallenge p d => setPendingChallenge s p d
  | .clearPendingChallenge p => clearPendingChallenge s p
  | .loadUserContext env p => (loadUserContext env s p).2

/-- Is this op a `setCredentials` for phone `p`? -/
def AuthOp.isSetCredentialsFor (op : AuthOp) (p : String) : Bool :=
  match op with
  | .setCredentials q _ => q = p
  | _ => false

theorem justOnboarded_absent_preserved (s : AuthDB) (p : String) (op : AuthOp)
    (hop : op.isSetCredentialsFor p = false)
    (h : alookup s.justOnboarded p = none) :
    alookup (applyAuthOp s op).justOnboarded p = none := by
  cases op with
  | createUser q => exact h
  | updateLastActive q => exact h
  | setCredentials q c =>
    have hq : q ≠ p := by
      intro he
      simp [AuthOp.isSetCredentialsFor, he] at hop
    rw [applyAuthOp, setCredentials]
    simpa [updateOnboardingComplete, alookup_aput_ne _ _ _ _ hq] using h
  | clearCredentials q =>
    simpa [applyAuthOp, clearCredentials, updateOnboardingComplete] using h
  | clearSignedOut q => exact h
  | consumeJustOnboarded q =>
    rw [applyAuthOp, consumeJustOnboarded]
    cases hl : alookup s.justOnboarded q with
    | none => exact h
    | some u =>
      by_cases hq : q = p
      · subst hq
        simp
      · simpa [alookup_adel_ne _ _ _ (fun he => hq he)] using h
  | setPendingOTP q chatId => exact h
  | clearPendingOTP q => exact h
  | setPendingChallenge q d => exact h
  | clearPendingChallenge q => exact h
  | loadUserContext env q =>
    rw [applyAuthOp, loadUserContext]
    cases hu : getUser s q with
    | some u =>
      cases hc : getCredentials s q with
      | some creds => exact h
      | none =>
        by_cases hcond : env ≠ "" ∧ isSignedOut s q = false
        · simpa [hcond, updateLastActive] using h
        · simpa [hcond] using h
    | none =>
      by_cases hcond : env ≠ "" ∧ isSignedOut s q = false
      · simpa [hcond, updateLastActive, createUser] using h
      · simpa [hcond] using h

theorem justOnboarded_absent_foldl (ops : List AuthOp) (s : AuthDB) (p : String)
    (hops : ∀ op ∈ ops, op.isSetCredentialsFor p = false)
    (h : alookup s.justOnboarded p = none) :
    alookup (ops.foldl applyAuthOp s).justOnboarded p = none := by
  induction ops generalizing s with
  | nil => exact h
  | cons op rest ih =>
    exact ih _ (fun o ho => hops o (List.mem_cons_of_mem _ ho))
      (justOnboarded_absent_preserved _ _ _ (hops op (List.mem_cons_self _ _)) h)

/-- Claim C5. `consumeJustOnboarded` returns `true` exactly once per
`setCredentials` call: immediately after `setCredentials` it returns `true`
(and deletes the flag), and after that first consumption every further call
returns `false` across any sequence of auth-database operations that does not
include another `setCredentials` for that phone. -/
theorem consumeJustOnboarded_one_shot :
    ∀ (s : AuthDB) (p : String) (c : BookingsCredentials),
      (consumeJustOnboarded (setCredentials s p c) p).1 = true
    ∧ ∀ (ops : List AuthOp), (∀ op ∈ ops, op.isSetCredentialsFor p = false) →
        (consumeJustOnboarded
          (ops.foldl applyAuthOp (consumeJustOnboarded (setCredentials s p c) p).2) p).1
          = false := by
  intro s p c
  have hset : alookup (setCredentials s p c).justOnboarded p = some () := by
    simp [setCredentials, updateOnboardingComplete]
  constructor
  · rw [consumeJustOnboarded, hset]
  · intro ops hops
    have habsent :
        alookup ((consumeJustOnboarded (setCredentials s p c) p).2).justOnboarded p
          = none := by
      rw [consumeJustOnboarded, hset]
      simp
    have := justOnboarded_absent_foldl ops _ p hops habsent
    rw [consumeJustOnboarded, this]

/-- Witness for `consumeJustOnboarded_one_shot`: concrete phone and
credentials; in between the two consumptions the user clears and re-checks
a pending OTP and signs out (none of which re-arms the flag). -/
theorem consumeJustOnboarded_one_shot_witness :
    (consumeJustOnboarded
      (setCredentials emptyAuthDB "+15550001111" { resyAuthToken := "tok" })
      "+15550001111").1 = true
  ∧ (consumeJustOnboarded
      ([AuthOp.setPendingOTP "+15550001111" "chat1",
        AuthOp.clearCredentials "+15550001111",
        AuthOp.setCredentials "+15550009999" { resyAuthToken := "other" }].foldl
        applyAuthOp
        (consumeJustOnboarded
          (setCredentials emptyAuthDB "+15550001111" { resyAuthToken := "tok" })
          "+15550001111").2) "+15550001111").1 = false := by
  constructor
  · exact (consumeJustOnboarded_one_shot emptyAuthDB "+15550001111" ⟨"tok"⟩).1
  · exact (consumeJustOnboarded_one_shot emptyAuthDB "+15550001111" ⟨"tok"⟩).2 _ (by decide)

/-- Repeated `loadUserContext` calls, threading the state:
`loadUserContextIter env p n s` is the result of the `(n+1)`-st call. -/
def loadUserContextIter (env p : String) : Nat → AuthDB → Option UserContext × AuthDB
  | 0, s => loadUserContext env s p
  | n + 1, s => loadUserContextIter env p n (loadUserContext env s p).2

theorem loadUserContext_stuck (env : String) (s : AuthDB) (p : String)
    (hc : getCredentials s p = none) (hs : isSignedOut s p = true) :
    loadUserContext env s p = (none, s) := by
  have hcond : ¬(env ≠ "" ∧ isSignedOut s p = false) := by
    intro ⟨_, hfalse⟩
    rw [hs] at hfalse
    exact Bool.noConfusion hfalse
  rw [loadUserContext]
  cases hu : getUser s p <;> simp [hc, hcond]

theorem loadUserContextIter_stuck (env : String) (p : String) (n : Nat) (s : AuthDB)
    (hc : getCredentials s p = none) (hs : isSignedOut s p = true) :
    loadUserContextIter env p n s = (none, s) := by
  induction n with
  | zero => exact loadUserContext_stuck env s p hc hs
  | succ n ih =>
    rw [loadUserContextIter, loadUserContext_stuck env s p hc hs]
    exact ih

/-- Claim C3. After `clearCredentials`: `getCredentials` returns `null`,
`isSignedOut` returns `true`, and every subsequent `loadUserContext` call
returns `null` even when the global fallback credential (`RESY_AUTH_TOKEN`,
a non-empty `env`) is configured — until `clearSignedOut` runs, after which
`loadUserContext` resolves the fallback again. The signed-out flag is a hard
override on the fallback path. -/
theorem signedOut_hard_override (s : AuthDB) (p env : String) (henv : env ≠ "") :
    getCredentials (clearCredentials s p) p = none
  ∧ isSignedOut (clearCredentials s p) p = true
  ∧ (∀ n, (loadUserContextIter env p n (clearCredentials s p)).1 = none)
  ∧ ((loadUserContext env (clearSignedOut (clearCredentials s p) p) p).1).isSome = true := by
  have hc : getCredentials (clearCredentials s p) p = none := by
    simp [clearCredentials, getCredentials, updateOnboardingComplete]
  have hs : isSignedOut (clearCredentials s p) p = true := by
    simp [clearCredentials, isSignedOut, updateOnboardingComplete]
  refine ⟨hc, hs, ?_, ?_⟩
  · intro n
    rw [loadUserContextIter_stuck env p n _ hc hs]
  · have hs' : isSignedOut (clearSignedOut (clearCredentials s p) p) p = false := by
      simp [clearSignedOut, isSignedOut]
    rw [loadUserContext]
    cases hu : getUser (clearSignedOut (clearCredentials s p) p) p with
    | some u =>
      cases hcred : getCredentials (clearSignedOut (clearCredentials s p) p) p with
      | some creds => simp
      | none => simp [henv, hs']
    | none => simp [henv, hs']

/-- Witness for `signedOut_hard_override`: a user who onboarded, then signed
out; with `RESY_AUTH_TOKEN = "envtok"` configured, the third consecutive
`loadUserContext` still returns `null`, and `clearSignedOut` restores the
fallback. -/
theorem signedOut_hard_override_witness :
    getCredentials
      (clearCredentials (setCredentials emptyAuthDB "+15550001111" ⟨"tok"⟩) "+15550001111")
      "+15550001111" = none
  ∧ isSignedOut
      (clearCredentials (setCredentials emptyAuthDB "+15550001111" ⟨"tok"⟩) "+15550001111")
      "+15550001111" = true
  ∧ (loadUserContextIter "envtok" "+15550001111" 2
      (clearCredentials (setCredentials emptyAuthDB "+15550001111" ⟨"tok"⟩)
        "+15550001111")).1 = none
  ∧ ((loadUserContext "envtok"
      (clearSignedOut
        (clearCredentials (setCredentials emptyAuthDB "+15550001111" ⟨"tok"⟩)
          "+15550001111") "+15550001111")
      "+15550001111").1).isSome = true := by
  have h := signedOut_hard_override
    (setCredentials emptyAuthDB "+15550001111" ⟨"tok"⟩) "+15550001111" "envtok"
    (by decide)
  exact ⟨h.1, h.2.1, h.2.2.1 2, h.2.2.2⟩

/-! ## Tool-orchestration loop (`src/claude/client.ts`, `chat`)

The LLM is an oracle: `model i` is the response the API returns after `i`
tool-result round-trips (`model 0` is the response to the initial request).
The loop is

```
let loopCount = 0;
while (response.stop_reason === 'tool_use' && loopCount < MAX_TOOL_LOOPS) {
  const hasDataTools = response.content.some(b => b.type === 'tool_use'
    && DATA_RETRIEVAL_TOOLS.has(b.name));
  if (!hasDataTools) break;
  ... execute tools, feed results back ...
  response = await client.messages.create(...);
  loopCount++;
}
```

and the final text is the join of the final response's text blocks (or
`null` when there are none). -/

inductive StopReason where
  | toolUse
  | endTurn
  | other
deriving DecidableEq

inductive ContentBlock where
  | text (s : String)
  | toolUse (id : String) (name : String)
deriving DecidableEq

structure ModelResponse where
  stop_reason : StopReason
  content : List ContentBlock
deriving DecidableEq

def DATA_RETRIEVAL_TOOLS : List String :=
  ["resy_search", "resy_find_slots", "resy_reservations", "resy_book", "resy_cancel"]

def MAX_TOOL_LOOPS : Nat := 5

def isDataToolBlock : ContentBlock → Bool
  | .toolUse _ name => DATA_RETRIEVAL_TOOLS.contains name
  | .text _ => false

def hasDataTools (r : ModelResponse) : Bool :=
  r.content.any isDataToolBlock

def toolLoopGo (model : Nat → ModelResponse) (resp : ModelResponse) (loopCount : Nat) :
    ModelResponse × Nat :=
  if h : resp.stop_reason = .toolUse ∧ loopCount < MAX_TOOL_LOOPS then
    if hasDataTools resp then
      toolLoopGo model (model (loopCount + 1)) (loopCount + 1)
    else (resp, loopCount)
  else (resp, loopCount)
termination_by MAX_TOOL_LOOPS - loopCount
decreasing_by
  have := h.2
  omega

def runToolLoop (model : Nat → ModelResponse) : ModelResponse × Nat :=
  toolLoopGo model (model 0) 0

/-- `finalTextParts.join('\n')`, `null` when no text block exists. -/
def finalText (r : ModelResponse) : Option String :=
  let parts := r.content.filterMap (fun b => match b with
    | .text t => some t
    | .toolUse _ _ => none)
  match parts with
  | [] => none
  | _ => some (String.intercalate "\n" parts)

theorem toolLoopGo_spec (model : Nat → ModelResponse) :
    ∀ (k n : Nat), n + k = MAX_TOOL_LOOPS →
      n ≤ (toolLoopGo model (model n) n).2
    ∧ (toolLoopGo model (model n) n).2 ≤ MAX_TOOL_LOOPS
    ∧ (toolLoopGo model (model n) n).1 = model (toolLoopGo model (model n) n).2
    ∧ (∀ j, n ≤ j → j < (toolLoopGo model (model n) n).2 →
        (model j).stop_reason = .toolUse ∧ hasDataTools (model j) = true)
    ∧ ((toolLoopGo model (model n) n).2 = MAX_TOOL_LOOPS
        ∨ ¬((model (toolLoopGo model (model n) n).2).stop_reason = .toolUse
            ∧ hasDataTools (model (toolLoopGo model (model n) n).2) = true)) := by
  intro k
  induction k with
  | zero =>
    intro n hn
    have hn5 : n = MAX_TOOL_LOOPS := by omega
    rw [toolLoopGo]
    have hcond : ¬((model n).stop_reason = .toolUse ∧ n < MAX_TOOL_LOOPS) := by
      intro ⟨_, hlt⟩
      omega
    rw [dif_neg hcond]
    refine ⟨Nat.le_refl n, by omega, rfl, ?_, Or.inl hn5⟩
    intro j hj hj'
    omega
  | succ k ih =>
    intro n hn
    have hlt : n < MAX_TOOL_LOOPS := by omega
    rw [toolLoopGo]
    by_cases hstop : (model n).stop_reason = .toolUse
    · rw [dif_pos ⟨hstop, hlt⟩]
      by_cases hdata : hasDataTools (model n)
      · rw [if_pos hdata]
        have ihn := ih (n + 1) (by omega)
        refine ⟨by omega, ihn.2.1, ihn.2.2.1, ?_, ihn.2.2.2.2⟩
        intro j hj hj'
        by_cases hje : j = n
        · subst hje
          exact ⟨hstop, hdata⟩
        · exact ihn.2.2.2.1 j (by omega) hj'
      · rw [if_neg hdata]
        refine ⟨Nat.le_refl n, by omega, rfl, ?_, Or.inr ?_⟩
        · intro j hj hj'
          omega
        · intro ⟨_, hd⟩
          exact hdata hd
    · have hcond : ¬((model n).stop_reason = .toolUse ∧ n < MAX_TOOL_LOOPS) := by
        intro ⟨hs, _⟩
        exact hstop hs
      rw [dif_neg hcond]
      refine ⟨Nat.le_refl n, by omega, rfl, ?_, Or.inr ?_⟩
      · intro j hj hj'
        omega
      · intro ⟨hs, _⟩
        exact hstop hs

/-- Claim C1. The tool loop in `chat` feeds tool results back only while the
model's last turn requested at least one data tool AND the loop counter is
below `MAX_TOOL_LOOPS = 5`: every round that runs was triggered by a
`tool_use` turn containing a data tool; the round count never exceeds 5; a
turn with only fire-and-forget tool calls ends the loop immediately (the
loop returns that very turn after zero further rounds); and a model that
requests a data tool on 5 consecutive turns stops after the 5th round
without error, the reply being the final turn's text (possibly `null`). -/
theorem tool_loop_bounded (model : Nat → ModelResponse) :
    (runToolLoop model).2 ≤ MAX_TOOL_LOOPS
  ∧ (∀ j, j < (runToolLoop model).2 →
      (model j).stop_reason = .toolUse ∧ hasDataTools (model j) = true)
  ∧ (runToolLoop model).1 = model (runToolLoop model).2
  ∧ ((model 0).stop_reason = .toolUse → hasDataTools (model 0) = false →
      runToolLoop model = (model 0, 0))
  ∧ ((∀ j, j < MAX_TOOL_LOOPS →
        (model j).stop_reason = .toolUse ∧ hasDataTools (model j) = true) →
      runToolLoop model = (model MAX_TOOL_LOOPS, MAX_TOOL_LOOPS)) := by
  have hspec := toolLoopGo_spec model MAX_TOOL_LOOPS 0 (by omega)
  refine ⟨hspec.2.1, ?_, hspec.2.2.1, ?_, ?_⟩
  · intro j hj
    exact hspec.2.2.2.1 j (Nat.zero_le j) hj
  · intro hstop hdata
    rw [runToolLoop, toolLoopGo, dif_pos ⟨hstop, by rw [MAX_TOOL_LOOPS]; omega⟩,
      if_neg (by rw [hdata]; exact Bool.false_ne_true)]
  · intro hall
    have hn : (runToolLoop model).2 = MAX_TOOL_LOOPS := by
      rcases hspec.2.2.2.2 with h | h
      · exact h
      · by_contra hne
        have hlt : (runToolLoop model).2 < MAX_TOOL_LOOPS :=
          Nat.lt_of_le_of_ne hspec.2.1 hne
        exact h (hall _ hlt)
    have h1 : (runToolLoop model).1 = model (runToolLoop model).2 := hspec.2.2.1
    rw [hn] at h1
    calc runToolLoop model
        = ((runToolLoop model).1, (runToolLoop model).2) := rfl
      _ = (model MAX_TOOL_LOOPS, MAX_TOOL_LOOPS) := by rw [hn, h1]

/-- Witness for `tool_loop_bounded`: a model that requests `resy_search` on
every turn; the loop stops after exactly 5 rounds and returns turn 5 (whose
final text is `null` — it has no text block). -/
theorem tool_loop_bounded_witness :
    runToolLoop (fun _ => ⟨StopReason.toolUse, [ContentBlock.toolUse "t1" "resy_search"]⟩)
      = (⟨StopReason.toolUse, [ContentBlock.toolUse "t1" "resy_search"]⟩, 5)
  ∧ finalText ⟨StopReason.toolUse, [ContentBlock.toolUse "t1" "resy_search"]⟩ = none := by
  constructor
  · exact (tool_loop_bounded
      (fun _ => ⟨StopReason.toolUse, [ContentBlock.toolUse "t1" "resy_search"]⟩)).2.2.2.2
      (by intro j hj; exact ⟨rfl, by decide⟩)
  · decide

/-! ## Group-chat classifier (`src/claude/client.ts`, `getGroupChatAction`)

The Haiku classifier's raw textual answer is an oracle input; the function
lowercases and trims it, then parses:

```
let action: GroupChatAction = 'ignore';
if (answer.includes('respond')) { action = 'respond'; }
else if (answer.includes('react')) { action = 'react'; ... }
```

`jsIncludes` is JavaScript `String.prototype.includes` (contiguous-substring
containment). -/

/-- Is `sub` a contiguous substring of `l`? (JS `includes`.) -/
def hasSubstr (sub : List Char) : List Char → Bool
  | [] => sub.isEmpty
  | c :: rest => sub.isPrefixOf (c :: rest) || hasSubstr sub rest

def jsIncludes (s sub : String) : Bool :=
  hasSubstr sub.data s.data

/-- ASCII case folding (JS `toLowerCase` restricted to ASCII, which is all
the classifier prompt and parser compare against). -/
def charLower (c : Char) : Char :=
  if 'A' ≤ c ∧ c ≤ 'Z' then Char.ofNat (c.toNat + 32) else c

def isWhitespaceChar (c : Char) : Bool :=
  c = ' ' || c = '\t' || c = '\n' || c = '\r'

/-- JS `answer.toLowerCase().trim()`. -/
def lowerTrim (s : String) : String :=
  String.mk
    ((((s.data.map charLower).dropWhile isWhitespaceChar).reverse.dropWhile
        isWhitespaceChar).reverse)

inductive GroupChatAction where
  | respond
  | react
  | ignore
deriving DecidableEq

/-- Parse of the classifier answer (the body of `getGroupChatAction` after
the model call; the non-text-first-block and API-error paths both yield
`ignore` upstream of this parse). -/
def getGroupChatActionParse (answerRaw : String) : GroupChatAction × Option String :=
  let answer := lowerTrim answerRaw
  if jsIncludes answer "respond" then (.respond, none)
  else if jsIncludes answer "react" then
    (.react,
      if jsIncludes answer "love" then some "love"
      else if jsIncludes answer "laugh" then some "laugh"
      else if jsIncludes answer "like" then some "like"
      else some "like")
  else (.ignore, none)

/-- Counterexample to claim C8 as stated: the ambiguous classifier answer
`"not sure"` clearly indicates no reaction (it does not even contain
`"react"`), yet the parsed action is `ignore`, not `respond`. -/
theorem group_classifier_bias_counterexample :
    (getGroupChatActionParse "not sure").1 = GroupChatAction.ignore
  ∧ jsIncludes (lowerTrim "not sure") "react" = false
  ∧ jsIncludes (lowerTrim "not sure") "respond" = false := by
  refine ⟨by decide, by decide, by decide⟩

/-- Claim C8, amended. The parser maps any answer containing `"respond"` to
`respond`; otherwise any answer containing `"react"` to `react`; and every
other answer — ambiguous ones included — to `ignore`. The bias toward
`respond` lives in the classifier prompt (which instructs the model to
answer "respond" when unsure), not in the parsing, so an answer indicating
neither alternative yields `ignore`, not `respond`. -/
theorem group_classifier_parse_characterization (answerRaw : String) :
    (jsIncludes (lowerTrim answerRaw) "respond" = true →
      (getGroupChatActionParse answerRaw).1 = GroupChatAction.respond)
  ∧ (jsIncludes (lowerTrim answerRaw) "respond" = false →
      jsIncludes (lowerTrim answerRaw) "react" = true →
      (getGroupChatActionParse answerRaw).1 = GroupChatAction.react)
  ∧ (jsIncludes (lowerTrim answerRaw) "respond" = false →
      jsIncludes (lowerTrim answerRaw) "react" = false →
      (getGroupChatActionParse answerRaw).1 = GroupChatAction.ignore) := by
  refine ⟨?_, ?_, ?_⟩
  · intro h
    simp [getGroupChatActionParse, h]
  · intro h1 h2
    simp [getGroupChatActionParse, h1, h2]
  · intro h1 h2
    simp [getGroupChatActionParse, h1, h2]

/-- Witness for `group_classifier_parse_characterization` at the three
concrete answers `"Respond"`, `"react:love"` and `"not involving you"`. -/
theorem group_classifier_parse_characterization_witness :
    (getGroupChatActionParse "Respond").1 = GroupChatAction.respond
  ∧ (getGroupChatActionParse "react:love").1 = GroupChatAction.react
  ∧ (getGroupChatActionParse "not involving you").1 = GroupChatAction.ignore := by
  refine ⟨?_, ?_, ?_⟩
  · exact (group_classifier_parse_characterization "Respond").1 (by decide)
  · exact (group_classifier_parse_characterization "react:love").2.1 (by decide) (by decide)
  · exact (group_classifier_parse_characterization "not involving you").2.2
      (by decide) (by decide)

/-! ## Booking slot selection (`src/bookings/client.ts`, `bookReservation`)

`bookReservation` takes `venue_id + desired time` instead of a config token
precisely so that it can re-fetch a fresh slot list via `findSlots` at
booking time (config tokens expire within minutes). The network call is an
oracle: `freshSlots` is whatever `findSlots` returned at call time. The
selection logic is

```
if (freshSlots.length === 0) throw new Error('No available slots ...');
const match = freshSlots.find(s => s.time === desiredTime)
  || freshSlots.reduce((best, slot) =>
       Math.abs(toMin(slot.time) - toMin(desiredTime))
         < Math.abs(toMin(best.time) - toMin(desiredTime)) ? slot : best);
```

JavaScript `Number` yields `NaN` on non-numeric strings and every `<`
comparison against `NaN` is false; `NaN` is modelled as `none` and
`jsLtOpt none _ = jsLtOpt _ none = false`. -/

structure ResyTimeSlot where
  config_token : String
  date : String
  time : String
  party_size : Nat
  type : String
deriving DecidableEq

/-- JS `String.prototype.split(sep)` for a single-character separator, over
the character list of the string. -/
def splitChar (sep : Char) : List Char → List (List Char)
  | [] => [[]]
  | c :: rest =>
    if c = sep then [] :: splitChar sep rest
    else
      match splitChar sep rest with
      | [] => [[c]]
      | p :: ps => (c :: p) :: ps

def charsToNat (cs : List Char) : Nat :=
  cs.foldl (fun acc c => acc * 10 + (c.toNat - 48)) 0

/-- JS `Number(s)` for the strings that occur here: `""` is `0`, digit
strings parse, anything else is `NaN` (`none`). -/
def jsNumber (cs : List Char) : Option Nat :=
  if cs.isEmpty then some 0
  else if cs.all (fun c => c.isDigit) then some (charsToNat cs) else none

/-- `timeToMinutes`: `const [h, m] = time.split(':').map(Number);
return h * 60 + (m || 0);` — a `NaN` or missing minutes component is falsy
and becomes `0`; a `NaN` hours component poisons the result. -/
def timeToMinutes (time : String) : Option Nat :=
  let parts := splitChar ':' time.data
  let h := jsNumber (parts.headD [])
  let m : Nat := match parts[1]? with
    | some t => (jsNumber t).getD 0
    | none => 0
  h.map (fun hv => hv * 60 + m)

/-- `Math.abs(a - b)` on minute counts. -/
def slotDiff (slot : ResyTimeSlot) (desiredTime : String) : Option Nat :=
  match timeToMinutes slot.time, timeToMinutes desiredTime with
  | some a, some b => some (Nat.dist a b)
  | _, _ => none

/-- JS `<` with `NaN` semantics: any comparison involving `NaN` is false. -/
def jsLtOpt : Option Nat → Option Nat → Bool
  | some a, some b => a < b
  | _, _ => false

/-- The `reduce` picking the closest slot (no initial value: starts from the
first element, folds over the rest). -/
def closestSlot (desiredTime : String) (first : ResyTimeSlot) (rest : List ResyTimeSlot) :
    ResyTimeSlot :=
  rest.foldl
    (fun best slot =>
      if jsLtOpt (slotDiff slot desiredTime) (slotDiff best desiredTime) then slot else best)
    first

/-- The slot-selection prefix of `bookReservation` (step 0): fetch fresh
slots, fail on an empty list, otherwise pick exact-match / closest / first. -/
def bookReservation (freshSlots : List ResyTimeSlot) (desiredTime : Option String) :
    Except String ResyTimeSlot :=
  match freshSlots with
  | [] => .error "No available slots for this venue/date/party size. The restaurant may be fully booked."
  | first :: rest =>
    match desiredTime with
    | some d =>
      match freshSlots.find? (fun s => s.time = d) with
      | some m => .ok m
      | none => .ok (closestSlot d first rest)
    | none => .ok first

theorem closestSlot_spec (d : String) (hd : (timeToMinutes d).isSome) :
    ∀ (rest : List ResyTimeSlot) (first : ResyTimeSlot),
      (timeToMinutes first.time).isSome →
      (∀ x ∈ rest, (timeToMinutes x.time).isSome) →
      ∃ l₁ l₂, first :: rest = l₁ ++ closestSlot d first rest :: l₂
      ∧ (∀ x ∈ first :: rest,
          (slotDiff (closestSlot d first rest) d).getD 0 ≤ (slotDiff x d).getD 0)
      ∧ (∀ x ∈ l₁,
          (slotDiff (closestSlot d first rest) d).getD 0 < (slotDiff x d).getD 0) := by
  intro rest
  induction rest with
  | nil =>
    intro first hfirst hrest
    refine ⟨[], [], rfl, ?_, ?_⟩
    · intro x hx
      rw [List.mem_singleton] at hx
      rw [hx]
      exact Nat.le_refl _
    · intro x hx
      exact absurd hx (List.not_mem_nil x)
  | cons slot tail ih =>
    intro first hfirst hrest
    obtain ⟨df, hdf⟩ := Option.isSome_iff_exists.mp hfirst
    obtain ⟨dd, hdd⟩ := Option.isSome_iff_exists.mp hd
    obtain ⟨ds, hds⟩ := Option.isSome_iff_exists.mp
      (hrest slot (List.mem_cons_self _ _))
    have hdiff_first : slotDiff first d = some (Nat.dist df dd) := by
      rw [slotDiff, hdf, hdd]
    have hdiff_slot : slotDiff slot d = some (Nat.dist ds dd) := by
      rw [slotDiff, hds, hdd]
    have hstep : closestSlot d first (slot :: tail)
        = closestSlot d (if jsLtOpt (slotDiff slot d) (slotDiff first d) then slot else first)
            tail := by
      rw [closestSlot, closestSlot, List.foldl_cons]
    by_cases hlt : jsLtOpt (slotDiff slot d) (slotDiff first d) = true
    · -- the new slot is strictly closer: it replaces the accumulator
      have hltn : Nat.dist ds dd < Nat.dist df dd := by
        have hlt2 := hlt
        rw [hdiff_slot, hdiff_first] at hlt2
        simpa [jsLtOpt] using hlt2
      obtain ⟨l₁, l₂, hsplit, hmin, hstrict⟩ :=
        ih slot (hrest slot (List.mem_cons_self _ _))
          (fun x hx => hrest x (List.mem_cons_of_mem _ hx))
      rw [hstep, if_pos hlt]
      refine ⟨first :: l₁, l₂, by rw [List.cons_append, ← hsplit], ?_, ?_⟩
      · intro x hx
        rcases List.mem_cons.mp hx with hx | hx
        · rw [hx, hdiff_first]
          have h1 := hmin slot (List.mem_cons_self _ _)
          rw [hdiff_slot] at h1
          simp only [Option.getD_some] at h1 ⊢
          omega
        · exact hmin x hx
      · intro x hx
        rcases List.mem_cons.mp hx with hx | hx
        · rw [hx, hdiff_first]
          have h1 := hmin slot (List.mem_cons_self _ _)
          rw [hdiff_slot] at h1
          simp only [Option.getD_some] at h1 ⊢
          omega
        · exact hstrict x hx
    · -- the accumulator survives (ties favour the earlier slot)
      have hge : Nat.dist df dd ≤ Nat.dist ds dd := by
        have hlt2 : ¬(jsLtOpt (some (Nat.dist ds dd)) (some (Nat.dist df dd)) = true) := by
          rw [← hdiff_slot, ← hdiff_first]
          exact hlt
        simp only [jsLtOpt, decide_eq_true_eq] at hlt2
        omega
      obtain ⟨l₁, l₂, hsplit, hmin, hstrict⟩ :=
        ih first hfirst (fun x hx => hrest x (List.mem_cons_of_mem _ hx))
      rw [hstep, if_neg hlt]
      cases l₁ with
      | nil =>
        -- the final choice is `first` itself: put `slot` after it
        simp only [List.nil_append] at hsplit
        have hfirst_eq : closestSlot d first tail = first := by
          have hh := congrArg (fun l => l.headD first) hsplit
          simpa using hh.symm
        refine ⟨[], slot :: tail, by rw [hfirst_eq]; rfl, ?_, ?_⟩
        · intro x hx
          rcases List.mem_cons.mp hx with hx | hx
          · rw [hx, hfirst_eq]
          · rcases List.mem_cons.mp hx with hx | hx
            · rw [hx, hfirst_eq, hdiff_first, hdiff_slot]
              simp only [Option.getD_some]
              omega
            · exact hmin x (List.mem_cons_of_mem _ hx)
        · intro x hx
          exact absurd hx (List.not_mem_nil x)
      | cons y l₁m =>
        -- the final choice sits inside `tail`: `first` and `slot` precede it
        have hy : first = y := by
          have hh := congrArg (fun l => l.headD first) hsplit
          simpa using hh
        rw [← hy] at hsplit hstrict
        have htail_split : tail = l₁m ++ closestSlot d first tail :: l₂ := by
          have hh := congrArg List.tail hsplit
          simpa using hh
        refine ⟨first :: slot :: l₁m, l₂, ?_, ?_, ?_⟩
        · rw [List.cons_append, List.cons_append, ← htail_split]
        · intro x hx
          rcases List.mem_cons.mp hx with hx | hx
          · rw [hx]
            exact hmin first (List.mem_cons_self _ _)
          · rcases List.mem_cons.mp hx with hx | hx
            · rw [hx, hdiff_slot]
              have h1 := hmin first (List.mem_cons_self _ _)
              rw [hdiff_first] at h1
              simp only [Option.getD_some] at h1 ⊢
              omega
            · exact hmin x (List.mem_cons_of_mem _ hx)
        · intro x hx
          rcases List.mem_cons.mp hx with hx | hx
          · rw [hx]
            exact hstrict first (List.mem_cons_self _ _)
          · rcases List.mem_cons.mp hx with hx | hx
            · rw [hx, hdiff_slot]
              have h1 := hstrict first (List.mem_cons_self _ _)
              rw [hdiff_first] at h1
              simp only [Option.getD_some] at h1 ⊢
              omega
            · exact hstrict x (List.mem_cons_of_mem _ hx)

theorem closestSlot_mem (d : String) (rest : List ResyTimeSlot) (first : ResyTimeSlot) :
    closestSlot d first rest ∈ first :: rest := by
  induction rest generalizing first with
  | nil => exact List.mem_singleton.mpr rfl
  | cons slot tail ih =>
    rw [closestSlot, List.foldl_cons]
    by_cases h : jsLtOpt (slotDiff slot d) (slotDiff first d) = true
    · rw [if_pos h]
      exact List.mem_cons_of_mem _ (ih slot)
    · rw [if_neg h]
      show closestSlot d first tail ∈ first :: slot :: tail
      rcases List.mem_cons.mp (ih first) with hh | hh
      · rw [hh]
        exact List.mem_cons_self _ _
      · exact List.mem_cons_of_mem _ (List.mem_cons_of_mem _ hh)

theorem find?_first_match (p : ResyTimeSlot → Bool) (l₁ l₂ : List ResyTimeSlot)
    (m : ResyTimeSlot) (hm : p m = true) (hl₁ : ∀ x ∈ l₁, p x = false) :
    (l₁ ++ m :: l₂).find? p = some m := by
  induction l₁ with
  | nil => simp [List.find?_cons, hm]
  | cons y ys ih =>
    rw [List.cons_append, List.find?_cons, hl₁ y (List.mem_cons_self _ _)]
    exact ih (fun x hx => hl₁ x (List.mem_cons_of_mem _ hx))

/-- Claim C2. `bookReservation` books only from the freshly fetched
`findSlots` result (the fetched list is its sole slot source — any slot it
returns is a member of that list, so the config token used is never one from
earlier in the conversation); with a desired time it picks the first slot
whose time string equals it exactly when one exists, otherwise the slot with
minimum absolute minutes-of-day difference with ties broken by input order
(everything before the chosen slot is strictly farther); with no desired
time it picks the first slot; and an empty fresh list yields an error
instead of a booking. -/
theorem booking_selects_fresh_slot :
    (∀ desired, bookReservation [] desired
      = .error "No available slots for this venue/date/party size. The restaurant may be fully booked.")
  ∧ (∀ slots desired m, bookReservation slots desired = .ok m → m ∈ slots)
  ∧ (∀ (first : ResyTimeSlot) rest, bookReservation (first :: rest) none = .ok first)
  ∧ (∀ (l₁ l₂ : List ResyTimeSlot) (m : ResyTimeSlot) (d : String),
      m.time = d → (∀ x ∈ l₁, x.time ≠ d) →
      bookReservation (l₁ ++ m :: l₂) (some d) = .ok m)
  ∧ (∀ (slots : List ResyTimeSlot) (d : String),
      slots ≠ [] → (∀ x ∈ slots, x.time ≠ d) →
      (timeToMinutes d).isSome → (∀ x ∈ slots, (timeToMinutes x.time).isSome) →
      ∃ m l₁ l₂, bookReservation slots (some d) = .ok m
        ∧ slots = l₁ ++ m :: l₂
        ∧ (∀ x ∈ slots, (slotDiff m d).getD 0 ≤ (slotDiff x d).getD 0)
        ∧ (∀ x ∈ l₁, (slotDiff m d).getD 0 < (slotDiff x d).getD 0)) := by
  refine ⟨fun _ => rfl, ?_, fun _ _ => rfl, ?_, ?_⟩
  · intro slots desired m hbk
    cases slots with
    | nil => exact absurd hbk (by rw [bookReservation]; intro h; cases h)
    | cons first rest =>
      cases desired with
      | none =>
        rw [bookReservation] at hbk
        cases hbk
        exact List.mem_cons_self _ _
      | some d =>
        rw [bookReservation] at hbk
        cases hf : (first :: rest).find? (fun s => s.time = d) with
        | some mm =>
          rw [hf] at hbk
          cases hbk
          exact List.mem_of_find?_eq_some hf
        | none =>
          rw [hf] at hbk
          cases hbk
          exact closestSlot_mem d rest first
  · intro l₁ l₂ m d hm hl₁
    cases hsplit : l₁ ++ m :: l₂ with
    | nil => exact absurd hsplit (by simp)
    | cons first rest =>
      rw [bookReservation, ← hsplit,
        find?_first_match _ l₁ l₂ m (by simp [hm]) (fun x hx => by simp [hl₁ x hx])]
  · intro slots d hne hnoexact hd hall
    cases slots with
    | nil => exact absurd rfl hne
    | cons first rest =>
      have hfind : (first :: rest).find? (fun s => s.time = d) = none := by
        rw [List.find?_eq_none]
        intro x hx
        simp [hnoexact x hx]
      obtain ⟨l₁, l₂, hsplit, hmin, hstrict⟩ :=
        closestSlot_spec d hd rest first (hall first (List.mem_cons_self _ _))
          (fun x hx => hall x (List.mem_cons_of_mem _ hx))
      refine ⟨closestSlot d first rest, l₁, l₂, ?_, hsplit, hmin, hstrict⟩
      rw [bookReservation, hfind]

/-- Witness for `booking_selects_fresh_slot`: a fresh list with slots at
17:00, 19:00 and two slots equidistant from a desired 18:00; the empty list
errors; no desired time picks the first slot; an exact 19:00 match beats a
17:00 slot before it; and for 18:00 (no exact match) the earlier of the two
equidistant slots (17:00, over 19:00) wins the tie. -/
theorem booking_selects_fresh_slot_witness :
    bookReservation [] (some "19:00")
      = .error "No available slots for this venue/date/party size. The restaurant may be fully booked."
  ∧ bookReservation
      [⟨"tokA", "2025-01-01", "17:00", 2, "Dining Room"⟩,
       ⟨"tokB", "2025-01-01", "19:00", 2, "Dining Room"⟩] none
      = .ok ⟨"tokA", "2025-01-01", "17:00", 2, "Dining Room"⟩
  ∧ bookReservation
      [⟨"tokA", "2025-01-01", "17:00", 2, "Dining Room"⟩,
       ⟨"tokB", "2025-01-01", "19:00", 2, "Dining Room"⟩] (some "19:00")
      = .ok ⟨"tokB", "2025-01-01", "19:00", 2, "Dining Room"⟩
  ∧ (∃ m l₁ l₂,
      bookReservation
        [⟨"tokA", "2025-01-01", "17:00", 2, "Dining Room"⟩,
         ⟨"tokB", "2025-01-01", "19:00", 2, "Dining Room"⟩] (some "18:00")
        = .ok m
      ∧ [⟨"tokA", "2025-01-01", "17:00", 2, "Dining Room"⟩,
         ⟨"tokB", "2025-01-01", "19:00", 2, "Dining Room"⟩] = l₁ ++ m :: l₂
      ∧ (∀ x ∈ [(⟨"tokA", "2025-01-01", "17:00", 2, "Dining Room"⟩ : ResyTimeSlot),
          ⟨"tokB", "2025-01-01", "19:00", 2, "Dining Room"⟩],
          (slotDiff m "18:00").getD 0 ≤ (slotDiff x "18:00").getD 0)
      ∧ (∀ x ∈ l₁, (slotDiff m "18:00").getD 0 < (slotDiff x "18:00").getD 0)) := by
  refine ⟨booking_selects_fresh_slot.1 _, booking_selects_fresh_slot.2.2.1 _ _, ?_, ?_⟩
  · exact booking_selects_fresh_slot.2.2.2.1
      [⟨"tokA", "2025-01-01", "17:00", 2, "Dining Room"⟩] []
      ⟨"tokB", "2025-01-01", "19:00", 2, "Dining Room"⟩ "19:00" (by decide) (by decide)
  · exact booking_selects_fresh_slot.2.2.2.2 _ "18:00" (by decide) (by decide)
      (by decide) (by decide)

/-! ## Message-processing pipeline (`src/db/dynamodb.ts`, `processRecord`)

The Lambda processor's per-message dispatch, for one phone number `p` and
chat `chatId`. External calls (the Resy auth API, the JS regex engine for
the new-user e-mail match) are oracle inputs carried in `StepInput`; the
text-shape checks (`inline JWT`, OTP-code, `@`/`.` e-mail) are translated
from the source. Replies are collected as a list of sent message strings. -/

/-- `sendResyOTP` outcome: `'sms' | 'rate_limited' | false`. -/
inductive OTPSendResult where
  | sms
  | rateLimited
  | failed
deriving DecidableEq

/-- `verifyResyOTP` outcome: `{token} | {challenge} | {error:'server'} | null`. -/
inductive VerifyOTPResult where
  | token (t : String)
  | challenge (claimToken challengeId mobileNumber firstName : String)
      (isNewUser : Bool) (requiredFields : List RequiredField)
  | serverError
  | rejected
deriving DecidableEq

/-- JS `text.trim()` on the character list (common whitespace). -/
def jsTrim (cs : List Char) : List Char :=
  ((cs.dropWhile isWhitespaceChar).reverse.dropWhile isWhitespaceChar).reverse

/-- `trimmedText.startsWith('eyJ') && trimmedText.length > 100`. -/
def isInlineJWT (text : String) : Bool :=
  ("eyJ".data.isPrefixOf (jsTrim text.data)) && ((jsTrim text.data).length > 100)

/-- `text.trim().replace(/[\s\-\.]/g, '')` then `/^\d{4,6}$/`. -/
def isOtpCode (text : String) : Bool :=
  let stripped := (jsTrim text.data).filter
    (fun c => !(isWhitespaceChar c || c = '-' || c = '.'))
  (4 ≤ stripped.length && stripped.length ≤ 6) && stripped.all (fun c => c.isDigit)

/-- Existing-user challenge branch: `emailInput.includes('@') &&
emailInput.includes('.')` on the lowercased trimmed input. -/
def hasAtDot (text : String) : Bool :=
  jsIncludes (lowerTrim text) "@" && jsIncludes (lowerTrim text) "."

/-- Oracle inputs for one `processRecord` invocation. -/
structure StepInput where
  text : String
  /-- result of `input.match(/[\w.+-]+@[\w.-]+\.\w+/i)` in the new-user
  branch (the JS regex engine is an external collaborator). -/
  regexEmail : Option String
  /-- result of the `sendResyOTP` call in the unauthenticated branch. -/
  otpSend : OTPSendResult
  /-- result of the `sendResyOTP` retry in the server-error path. -/
  otpRetry : OTPSendResult
  /-- result of `verifyResyOTP`. -/
  otpVerify : VerifyOTPResult
  /-- result of `registerResyUser` (new-user challenge branch). -/
  registerToken : Option String
  /-- result of `completeResyChallenge` (existing-user challenge branch). -/
  challengeToken : Option String
  /-- `RESY_AUTH_TOKEN` (empty string when unset). -/
  envToken : String
  /-- group-chat classifier verdict: `false` when the classifier said
  `ignore`/`react` (the authenticated branch then returns before
  `consumeJustOnboarded` and `chat`). -/
  proceedToChat : Bool

def ensureUser (s : AuthDB) (p : String) : AuthDB :=
  if (getUser s p).isSome then s else createUser s p

/-- The `if (!userCtx)` branch of `processRecord` (lines 356-377): send an
OTP and reply according to the three `sendResyOTP` outcomes. The user is
created beforehand when absent (lines 357-360). -/
def handleUnauthenticated (s : AuthDB) (p chatId : String) (otpResult : OTPSendResult) :
    AuthDB × List String :=
  let s := ensureUser s p
  match otpResult with
  | .sms =>
    (setPendingOTP s p chatId,
      ["hey! i just sent a verification code to this number from resy",
       "send me the 6-digit code to connect your account"])
  | .rateLimited =>
    (s,
      ["resy is temporarily blocking verification texts to your number (too many recent attempts)",
       "you can connect by pasting your resy auth token directly — go to resy.com, open browser dev tools, and copy the x-resy-auth-token header value, then text it to me"])
  | .failed =>
    (s,
      ["i couldn't send a verification code to this number — make sure you have a resy account linked to this phone number",
       "alternatively, you can paste your resy auth token directly — go to resy.com, log in, open dev tools, and copy the x-resy-auth-token header from any api request"])

/-- Claim C9. For an inbound message from a user without usable credentials,
the OTP request distinguishes three outcomes: on `'sms'` a pending-OTP
record is persisted for the phone (bound to the chat) and the replies say a
code was sent; on rate-limiting no pending-OTP record is created (the
pending-OTP table is untouched) and a reply explicitly offers the
inline-token fallback; on send failure likewise no record, and the fallback
offer uses different wording than the rate-limited case. -/
theorem otp_request_three_outcomes (s : AuthDB) (p chatId : String) :
    (getPendingOTP (handleUnauthenticated s p chatId .sms).1 p = some chatId
      ∧ (handleUnauthenticated s p chatId .sms).2.any
          (fun msg => jsIncludes msg "verification code") = true)
  ∧ ((handleUnauthenticated s p chatId .rateLimited).1.pendingOTP = s.pendingOTP
      ∧ (handleUnauthenticated s p chatId .rateLimited).2.any
          (fun msg => jsIncludes msg "resy auth token") = true)
  ∧ ((handleUnauthenticated s p chatId .failed).1.pendingOTP = s.pendingOTP
      ∧ (handleUnauthenticated s p chatId .failed).2.any
          (fun msg => jsIncludes msg "resy auth token") = true)
  ∧ (handleUnauthenticated s p chatId .failed).2
      ≠ (handleUnauthenticated s p chatId .rateLimited).2 := by
  have husers : (ensureUser s p).pendingOTP = s.pendingOTP := by
    rw [ensureUser]
    by_cases h : (getUser s p).isSome
    · rw [if_pos h]
    · rw [if_neg h]
      rfl
  have hsms2 : (handleUnauthenticated s p chatId .sms).2
      = ["hey! i just sent a verification code to this number from resy",
         "send me the 6-digit code to connect your account"] := rfl
  have hrl2 : (handleUnauthenticated s p chatId .rateLimited).2
      = ["resy is temporarily blocking verification texts to your number (too many recent attempts)",
         "you can connect by pasting your resy auth token directly — go to resy.com, open browser dev tools, and copy the x-resy-auth-token header value, then text it to me"] := rfl
  have hf2 : (handleUnauthenticated s p chatId .failed).2
      = ["i couldn't send a verification code to this number — make sure you have a resy account linked to this phone number",
         "alternatively, you can paste your resy auth token directly — go to resy.com, log in, open dev tools, and copy the x-resy-auth-token header from any api request"] := rfl
  refine ⟨⟨?_, by rw [hsms2]; decide⟩, ⟨?_, by rw [hrl2]; decide⟩,
    ⟨?_, by rw [hf2]; decide⟩, by rw [hf2, hrl2]; decide⟩
  · rw [handleUnauthenticated]
    exact alookup_aput_self _ _ _
  · rw [show (handleUnauthenticated s p chatId .rateLimited).1 = ensureUser s p from rfl,
      husers]
  · rw [show (handleUnauthenticated s p chatId .failed).1 = ensureUser s p from rfl,
      husers]

/-- Result of one `processRecord` invocation: the new database, the replies
sent, and a ghost flag recording whether `setCredentials` ran on this path
(visible by inspection: it is `true` exactly on the branches that call
`setCredentials`). -/
structure StepResult where
  db : AuthDB
  replies : List String
  storedCreds : Bool

/-- `processRecord` (Lambda processor, `src/db/dynamodb.ts`): the dispatch
for one inbound message from phone `p` in chat `chatId`. Chat counters,
profile reads, typing indicators and the conversation side of the
authenticated branch live in other tables and do not touch the auth
database; the authenticated branch's only auth-database effect is
`consumeJustOnboarded` (skipped when the group classifier short-circuits,
`inp.proceedToChat = false`). -/
def processRecord (s : AuthDB) (p chatId : String) (inp : StepInput) : StepResult :=
  if isInlineJWT inp.text then
    let s := ensureUser s p
    let s := setCredentials s p { resyAuthToken := String.mk (jsTrim inp.text.data) }
    let s := clearSignedOut s p
    let s := clearPendingOTP s p
    { db := s
      replies := ["you're all set! your resy account is connected",
        "i can search restaurants, find open tables, make reservations, and manage your bookings — just text me what you need"]
      storedCreds := true }
  else
    match getPendingChallenge s p with
    | some pc =>
      if pc.isNewUser then
        match inp.regexEmail with
        | some _email =>
          match inp.registerToken with
          | some tok =>
            let s := ensureUser s p
            let s := setCredentials s p { resyAuthToken := tok }
            let s := clearPendingChallenge s p
            let s := clearSignedOut s p
            { db := s
              replies := ["you're all set! your resy account is connected",
                "i can search restaurants, find open tables, make reservations, and manage your bookings — just text me what you need"]
              storedCreds := true }
          | none =>
            { db := clearPendingChallenge s p
              replies := ["i'm having trouble connecting your account automatically",
                "you can connect manually: log into resy.com, open browser dev tools (F12), go to Network tab, click any request, and copy the \"x-resy-auth-token\" header value — then paste it here"]
              storedCreds := false }
        | none =>
          { db := s, replies := ["what's the email address on your resy account?"]
            storedCreds := false }
      else
        if hasAtDot inp.text then
          match inp.challengeToken with
          | some tok =>
            let s := ensureUser s p
            let s := setCredentials s p { resyAuthToken := tok }
            let s := clearPendingChallenge s p
            let s := clearSignedOut s p
            { db := s
              replies := ["you're all set! your resy account is connected",
                "i can search restaurants, find open tables, make reservations, and manage your bookings — just text me what you need"]
              storedCreds := true }
          | none =>
            { db := s
              replies := ["that email didn't match your resy account — try the email address you used to sign up for resy"]
              storedCreds := false }
        else
          { db := s
            replies := ["i need the email address on your resy account to finish connecting — what email did you use to sign up for resy?"]
            storedCreds := false }
    | none =>
      match getPendingOTP s p with
      | some _otp =>
        if isOtpCode inp.text then
          match inp.otpVerify with
          | .rejected =>
            { db := s
              replies := ["that code didn't work — check the text from resy and try again"]
              storedCreds := false }
          | .serverError =>
            match inp.otpRetry with
            | .sms =>
              { db := setPendingOTP s p chatId
                replies := ["resy's servers are having issues right now — wait a minute and i'll resend a new code",
                  "just sent a new code — try again with the fresh one"]
                storedCreds := false }
            | _ =>
              { db := s
                replies := ["resy's servers are having issues right now — wait a minute and i'll resend a new code"]
                storedCreds := false }
          | .token tok =>
            let s := ensureUser s p
            let s := setCredentials s p { resyAuthToken := tok }
            let s := clearPendingOTP s p
            let s := clearSignedOut s p
            { db := s
              replies := ["you're all set! your resy account is connected",
                "i can search restaurants, find open tables, make reservations, and manage your bookings — just text me what you need"]
              storedCreds := true }
          | .challenge claimToken challengeId mobileNumber firstName isNewUser requiredFields =>
            let s := clearPendingOTP s p
            let s := setPendingChallenge s p
              { chatId, claimToken, challengeId, mobileNumber, firstName, isNewUser
                requiredFields }
            { db := s
              replies := [if isNewUser then
                  "almost there! i need your resy email to finish connecting — what email did you use for resy?"
                else "got it! one more step — what's the email address on your resy account?"]
              storedCreds := false }
        else
          { db := s
            replies := ["i'm still waiting for your resy verification code — check your texts for a 6-digit code from resy"]
            storedCreds := false }
      | none =>
        match loadUserContext inp.envToken s p with
        | (some _ctx, s') =>
          if inp.proceedToChat then
            { db := (consumeJustOnboarded s' p).2, replies := [], storedCreds := false }
          else
            { db := s', replies := [], storedCreds := false }
        | (none, s') =>
          let r := handleUnauthenticated s' p chatId inp.otpSend
          { db := r.1, replies := r.2, storedCreds := false }

/-- States of the message pipeline reachable from a fresh database by any
sequence of inbound messages (any phones, chats, texts and oracle
outcomes). -/
inductive Reachable : AuthDB → Prop where
  | init : Reachable emptyAuthDB
  | step (s : AuthDB) (p chatId : String) (inp : StepInput) :
      Reachable s → Reachable (processRecord s p chatId inp).db

/-- At most one of pending-OTP / pending-challenge per phone. -/
def pendingConsistent (s : AuthDB) : Prop :=
  ∀ q, getPendingOTP s q = none ∨ getPendingChallenge s q = none

/-! Projection lemmas: which auth-database operations leave the two pending
tables untouched. -/

@[simp] theorem pendingOTP_setCredentials (s : AuthDB) (p : String) (c : BookingsCredentials) :
    (setCredentials s p c).pendingOTP = s.pendingOTP := rfl

@[simp] theorem pendingChallenge_setCredentials (s : AuthDB) (p : String)
    (c : BookingsCredentials) :
    (setCredentials s p c).pendingChallenge = s.pendingChallenge := rfl

@[simp] theorem pendingOTP_clearSignedOut (s : AuthDB) (p : String) :
    (clearSignedOut s p).pendingOTP = s.pendingOTP := rfl

@[simp] theorem pendingChallenge_clearSignedOut (s : AuthDB) (p : String) :
    (clearSignedOut s p).pendingChallenge = s.pendingChallenge := rfl

@[simp] theorem pendingOTP_createUser (s : AuthDB) (p : String) :
    (createUser s p).pendingOTP = s.pendingOTP := rfl

@[simp] theorem pendingChallenge_createUser (s : AuthDB) (p : String) :
    (createUser s p).pendingChallenge = s.pendingChallenge := rfl

@[simp] theorem pendingOTP_ensureUser (s : AuthDB) (p : String) :
    (ensureUser s p).pendingOTP = s.pendingOTP := by
  rw [ensureUser]
  by_cases h : (getUser s p).isSome
  · rw [if_pos h]
  · rw [if_neg h]
    rfl

@[simp] theorem pendingChallenge_ensureUser (s : AuthDB) (p : String) :
    (ensureUser s p).pendingChallenge = s.pendingChallenge := by
  rw [ensureUser]
  by_cases h : (getUser s p).isSome
  · rw [if_pos h]
  · rw [if_neg h]
    rfl

@[simp] theorem pendingOTP_clearPendingChallenge (s : AuthDB) (p : String) :
    (clearPendingChallenge s p).pendingOTP = s.pendingOTP := rfl

@[simp] theorem pendingChallenge_clearPendingOTP (s : AuthDB) (p : String) :
    (clearPendingOTP s p).pendingChallenge = s.pendingChallenge := rfl

@[simp] theorem pendingOTP_clearPendingOTP (s : AuthDB) (p : String) :
    (clearPendingOTP s p).pendingOTP = adel s.pendingOTP p := rfl

@[simp] theorem pendingChallenge_clearPendingChallenge (s : AuthDB) (p : String) :
    (clearPendingChallenge s p).pendingChallenge = adel s.pendingChallenge p := rfl

@[simp] theorem pendingOTP_setPendingOTP (s : AuthDB) (p chatId : String) :
    (setPendingOTP s p chatId).pendingOTP = aput s.pendingOTP p chatId := rfl

@[simp] theorem pendingChallenge_setPendingOTP (s : AuthDB) (p chatId : String) :
    (setPendingOTP s p chatId).pendingChallenge = s.pendingChallenge := rfl

@[simp] theorem pendingOTP_setPendingChallenge (s : AuthDB) (p : String)
    (d : PendingChallenge) :
    (setPendingChallenge s p d).pendingOTP = s.pendingOTP := rfl

@[simp] theorem pendingChallenge_setPendingChallenge (s : AuthDB) (p : String)
    (d : PendingChallenge) :
    (setPendingChallenge s p d).pendingChallenge = aput s.pendingChallenge p d := rfl

@[simp] theorem pendingOTP_consumeJustOnboarded (s : AuthDB) (p : String) :
    ((consumeJustOnboarded s p).2).pendingOTP = s.pendingOTP := by
  rw [consumeJustOnboarded]
  cases alookup s.justOnboarded p <;> rfl

@[simp] theorem pendingChallenge_consumeJustOnboarded (s : AuthDB) (p : String) :
    ((consumeJustOnboarded s p).2).pendingChallenge = s.pendingChallenge := by
  rw [consumeJustOnboarded]
  cases alookup s.justOnboarded p <;> rfl

@[simp] theorem pendingOTP_loadUserContext (env : String) (s : AuthDB) (p : String) :
    ((loadUserContext env s p).2).pendingOTP = s.pendingOTP := by
  rw [loadUserContext]
  split
  · split
    · rfl
    · split
      · rfl
      · rfl
  · split
    · rfl
    · rfl

@[simp] theorem pendingChallenge_loadUserContext (env : String) (s : AuthDB) (p : String) :
    ((loadUserContext env s p).2).pendingChallenge = s.pendingChallenge := by
  rw [loadUserContext]
  split
  · split
    · rfl
    · split
      · rfl
      · rfl
  · split
    · rfl
    · rfl

/-- Exhaustive description of what one `processRecord` step does to the two
pending tables: other phones are untouched, and at the message's phone the
step is one of: no pending change (and no credential store); OTP (re)armed
while no challenge exists; inline-JWT credential store clearing the OTP;
credential store on the OTP path with no challenge present; challenge
created with the OTP consumed in the same step; or challenge resolved. -/
theorem processRecord_pending_cases (s : AuthDB) (p chatId : String) (inp : StepInput) :
    (∀ q, q ≠ p →
      getPendingOTP (processRecord s p chatId inp).db q = getPendingOTP s q
      ∧ getPendingChallenge (processRecord s p chatId inp).db q = getPendingChallenge s q)
  ∧ ((getPendingOTP (processRecord s p chatId inp).db p = getPendingOTP s p
        ∧ getPendingChallenge (processRecord s p chatId inp).db p = getPendingChallenge s p
        ∧ (processRecord s p chatId inp).storedCreds = false)
    ∨ (getPendingOTP (processRecord s p chatId inp).db p = some chatId
        ∧ getPendingChallenge (processRecord s p chatId inp).db p = getPendingChallenge s p
        ∧ getPendingChallenge s p = none
        ∧ (processRecord s p chatId inp).storedCreds = false)
    ∨ (getPendingOTP (processRecord s p chatId inp).db p = none
        ∧ getPendingChallenge (processRecord s p chatId inp).db p = getPendingChallenge s p
        ∧ (processRecord s p chatId inp).storedCreds = true
        ∧ isInlineJWT inp.text = true)
    ∨ (getPendingOTP (processRecord s p chatId inp).db p = none
        ∧ getPendingChallenge (processRecord s p chatId inp).db p = none
        ∧ getPendingChallenge s p = none
        ∧ (processRecord s p chatId inp).storedCreds = true)
    ∨ (getPendingOTP (processRecord s p chatId inp).db p = none
        ∧ (getPendingChallenge (processRecord s p chatId inp).db p).isSome = true
        ∧ (getPendingOTP s p).isSome = true
        ∧ getPendingChallenge s p = none
        ∧ (processRecord s p chatId inp).storedCreds = false)
    ∨ (getPendingOTP (processRecord s p chatId inp).db p = getPendingOTP s p
        ∧ getPendingChallenge (processRecord s p chatId inp).db p = none
        ∧ (getPendingChallenge s p).isSome = true)) := by
  set r := processRecord s p chatId inp with hr
  rw [processRecord] at hr
  split at hr
  · -- inline JWT branch
    rename_i hjwt
    refine ⟨?_, Or.inr (Or.inr (Or.inl ⟨?_, ?_, ?_, hjwt⟩))⟩
    · intro q hq
      rw [hr]
      exact ⟨by simp [getPendingOTP, alookup_adel_ne _ _ _ (Ne.symm hq)],
        by simp [getPendingChallenge]⟩
    · rw [hr]
      simp [getPendingOTP]
    · rw [hr]
      simp [getPendingChallenge]
    · rw [hr]
  · -- not a JWT: dispatch on pending challenge
    split at hr
    · -- pending challenge exists
      rename_i pc hpc
      split at hr
      · -- new-user challenge
        split at hr
        · -- regex email matched
          split at hr
          · -- registerResyUser succeeded: credentials stored, challenge cleared
            refine ⟨?_, Or.inr (Or.inr (Or.inr (Or.inr (Or.inr
              ⟨?_, ?_, by rw [hpc]; rfl⟩))))⟩
            · intro q hq
              rw [hr]
              exact ⟨by simp [getPendingOTP],
                by simp [getPendingChallenge, alookup_adel_ne _ _ _ (Ne.symm hq)]⟩
            · rw [hr]
              simp [getPendingOTP]
            · rw [hr]
              simp [getPendingChallenge]
          · -- registerResyUser failed: challenge cleared, no credentials
            refine ⟨?_, Or.inr (Or.inr (Or.inr (Or.inr (Or.inr
              ⟨?_, ?_, by rw [hpc]; rfl⟩))))⟩
            · intro q hq
              rw [hr]
              exact ⟨by simp [getPendingOTP],
                by simp [getPendingChallenge, alookup_adel_ne _ _ _ (Ne.symm hq)]⟩
            · rw [hr]
              simp [getPendingOTP]
            · rw [hr]
              simp [getPendingChallenge]
        · -- no email in the message: re-prompt
          exact ⟨fun q hq => by rw [hr]; exact ⟨rfl, rfl⟩,
            Or.inl ⟨by rw [hr], by rw [hr], by rw [hr]⟩⟩
      · -- existing-user challenge
        split at hr
        · -- e-mail shaped input
          split at hr
          · -- challenge completed: credentials stored, challenge cleared
            refine ⟨?_, Or.inr (Or.inr (Or.inr (Or.inr (Or.inr
              ⟨?_, ?_, by rw [hpc]; rfl⟩))))⟩
            · intro q hq
              rw [hr]
              exact ⟨by simp [getPendingOTP],
                by simp [getPendingChallenge, alookup_adel_ne _ _ _ (Ne.symm hq)]⟩
            · rw [hr]
              simp [getPendingOTP]
            · rw [hr]
              simp [getPendingChallenge]
          · -- wrong e-mail: challenge kept
            exact ⟨fun q hq => by rw [hr]; exact ⟨rfl, rfl⟩,
              Or.inl ⟨by rw [hr], by rw [hr], by rw [hr]⟩⟩
        · -- non-e-mail input: re-prompt
          exact ⟨fun q hq => by rw [hr]; exact ⟨rfl, rfl⟩,
            Or.inl ⟨by rw [hr], by rw [hr], by rw [hr]⟩⟩
    · -- no pending challenge: dispatch on pending OTP
      rename_i hpc
      split at hr
      · -- pending OTP exists
        rename_i otpChat hotp
        split at hr
        · -- the message is an OTP code
          split at hr
          · -- code rejected
            exact ⟨fun q hq => by rw [hr]; exact ⟨rfl, rfl⟩,
              Or.inl ⟨by rw [hr], by rw [hr], by rw [hr]⟩⟩
          · -- Resy server error: bounded retry
            split at hr
            · -- retry delivered: OTP re-armed
              refine ⟨?_, Or.inr (Or.inl ⟨?_, ?_, hpc, ?_⟩)⟩
              · intro q hq
                rw [hr]
                exact ⟨by simp [getPendingOTP, alookup_aput_ne _ _ _ _ (Ne.symm hq)],
                  by simp [getPendingChallenge]⟩
              · rw [hr]
                simp [getPendingOTP]
              · rw [hr]
                simp [getPendingChallenge]
              · rw [hr]
            · -- retry not delivered
              exact ⟨fun q hq => by rw [hr]; exact ⟨rfl, rfl⟩,
                Or.inl ⟨by rw [hr], by rw [hr], by rw [hr]⟩⟩
          · -- direct token: credentials stored, OTP cleared
            refine ⟨?_, Or.inr (Or.inr (Or.inr (Or.inl ⟨?_, ?_, hpc, ?_⟩)))⟩
            · intro q hq
              rw [hr]
              exact ⟨by simp [getPendingOTP, alookup_adel_ne _ _ _ (Ne.symm hq)],
                by simp [getPendingChallenge]⟩
            · rw [hr]
              simp [getPendingOTP]
            · rw [hr]
              simpa [getPendingChallenge] using hpc
            · rw [hr]
          · -- challenge required: OTP cleared, challenge created
            refine ⟨?_, Or.inr (Or.inr (Or.inr (Or.inr (Or.inl
              ⟨?_, ?_, by rw [hotp]; rfl, hpc, ?_⟩))))⟩
            · intro q hq
              rw [hr]
              exact ⟨by simp [getPendingOTP, alookup_adel_ne _ _ _ (Ne.symm hq)],
                by simp [getPendingChallenge, alookup_aput_ne _ _ _ _ (Ne.symm hq)]⟩
            · rw [hr]
              simp [getPendingOTP]
            · rw [hr]
              simp [getPendingChallenge]
            · rw [hr]
        · -- not a code: re-prompt
          exact ⟨fun q hq => by rw [hr]; exact ⟨rfl, rfl⟩,
            Or.inl ⟨by rw [hr], by rw [hr], by rw [hr]⟩⟩
      · -- no pending records: authenticated or onboarding
        rename_i hotp
        split at hr
        · -- credentials resolved
          rename_i ctx s2 hload
          have hs2 : s2 = (loadUserContext inp.envToken s p).2 := by
            rw [hload]
          split at hr
          · -- full chat path: consumeJustOnboarded
            exact ⟨fun q hq => by
                rw [hr]
                exact ⟨by simp [getPendingOTP, hs2], by simp [getPendingChallenge, hs2]⟩,
              Or.inl ⟨by rw [hr]; simp [getPendingOTP, hs2],
                by rw [hr]; simp [getPendingChallenge, hs2], by rw [hr]⟩⟩
          · -- classifier short-circuit
            exact ⟨fun q hq => by
                rw [hr]
                exact ⟨by simp [getPendingOTP, hs2], by simp [getPendingChallenge, hs2]⟩,
              Or.inl ⟨by rw [hr]; simp [getPendingOTP, hs2],
                by rw [hr]; simp [getPendingChallenge, hs2], by rw [hr]⟩⟩
        · -- no usable credentials: OTP onboarding
          rename_i s2 hload
          have hs2 : s2 = (loadUserContext inp.envToken s p).2 := by
            rw [hload]
          rw [handleUnauthenticated.eq_def] at hr
          split at hr
          · -- OTP delivered: pending OTP armed
            refine ⟨?_, Or.inr (Or.inl ⟨?_, ?_, hpc, ?_⟩)⟩
            · intro q hq
              rw [hr]
              exact ⟨by simp [getPendingOTP, hs2, alookup_aput_ne _ _ _ _ (Ne.symm hq)],
                by simp [getPendingChallenge, hs2]⟩
            · rw [hr]
              simp [getPendingOTP]
            · rw [hr]
              simp [getPendingChallenge, hs2]
            · rw [hr]
          · -- rate limited: nothing armed
            exact ⟨fun q hq => by
                rw [hr]
                exact ⟨by simp [getPendingOTP, hs2], by simp [getPendingChallenge, hs2]⟩,
              Or.inl ⟨by rw [hr]; simp [getPendingOTP, hs2],
                by rw [hr]; simp [getPendingChallenge, hs2], by rw [hr]⟩⟩
          · -- send failed: nothing armed
            exact ⟨fun q hq => by
                rw [hr]
                exact ⟨by simp [getPendingOTP, hs2], by simp [getPendingChallenge, hs2]⟩,
              Or.inl ⟨by rw [hr]; simp [getPendingOTP, hs2],
                by rw [hr]; simp [getPendingChallenge, hs2], by rw [hr]⟩⟩

theorem processRecord_preserves_pendingConsistent (s : AuthDB) (p chatId : String)
    (inp : StepInput) (hs : pendingConsistent s) :
    pendingConsistent (processRecord s p chatId inp).db := by
  obtain ⟨hframe, hcase⟩ := processRecord_pending_cases s p chatId inp
  intro q
  by_cases hq : q = p
  · subst hq
    rcases hcase with ⟨h1, h2, _⟩ | ⟨h1, h2, h3, _⟩ | ⟨h1, h2, _, _⟩ | ⟨h1, h2, _, _⟩
      | ⟨h1, h2, _, _, _⟩ | ⟨h1, h2, _⟩
    · rcases hs q with h | h
      · exact Or.inl (by rw [h1, h])
      · exact Or.inr (by rw [h2, h])
    · exact Or.inr (by rw [h2, h3])
    · exact Or.inl h1
    · exact Or.inl h1
    · exact Or.inl h1
    · exact Or.inr h2
  · rcases hs q with h | h
    · exact Or.inl (by rw [(hframe q hq).1, h])
    · exact Or.inr (by rw [(hframe q hq).2, h])

theorem reachable_pendingConsistent : ∀ s, Reachable s → pendingConsistent s := by
  intro s h
  induction h with
  | init =>
    intro q
    exact Or.inl rfl
  | step s p chatId inp _ ih =>
    exact processRecord_preserves_pendingConsistent s p chatId inp ih

/-- Claim C10, amended. At every reachable state of the message-processing
pipeline at most one of {pending OTP, pending challenge} exists per phone
number, and a pending challenge is only ever created in the very step that
clears that phone's pending OTP (which must have existed). The third clause
of the claim holds only in weakened form: a credential-storing step always
leaves the pending OTP cleared, and — except on the inline-JWT path, which
clears only the pending OTP — also leaves the pending challenge cleared; an
inline JWT sent while a challenge is pending stores credentials yet leaves
that challenge in place (see the counterexample). -/
theorem pending_records_mutual_exclusion :
    (∀ s, Reachable s → pendingConsistent s)
  ∧ (∀ (s : AuthDB) (p chatId : String) (inp : StepInput) (q : String),
      getPendingChallenge s q = none →
      getPendingChallenge (processRecord s p chatId inp).db q ≠ none →
      (getPendingOTP s q).isSome = true
      ∧ getPendingOTP (processRecord s p chatId inp).db q = none)
  ∧ (∀ (s : AuthDB) (p chatId : String) (inp : StepInput),
      pendingConsistent s →
      (processRecord s p chatId inp).storedCreds = true →
      getPendingOTP (processRecord s p chatId inp).db p = none
      ∧ (isInlineJWT inp.text = false →
          getPendingChallenge (processRecord s p chatId inp).db p = none)) := by
  refine ⟨reachable_pendingConsistent, ?_, ?_⟩
  · intro s p chatId inp q hbefore hafter
    obtain ⟨hframe, hcase⟩ := processRecord_pending_cases s p chatId inp
    by_cases hq : q = p
    · subst hq
      rcases hcase with ⟨h1, h2, _⟩ | ⟨h1, h2, h3, _⟩ | ⟨h1, h2, _, _⟩ | ⟨h1, h2, _, _⟩
        | ⟨h1, h2, h3, h4, _⟩ | ⟨h1, h2, h3⟩
      · exact absurd (h2.trans hbefore) hafter
      · exact absurd (h2.trans hbefore) hafter
      · exact absurd (h2.trans hbefore) hafter
      · exact absurd h2 hafter
      · exact ⟨h3, h1⟩
      · rw [hbefore] at h3
        exact Bool.noConfusion h3
    · exact absurd ((hframe q hq).2.trans hbefore) hafter
  · intro s p chatId inp hs hstore
    obtain ⟨hframe, hcase⟩ := processRecord_pending_cases s p chatId inp
    rcases hcase with ⟨h1, h2, h3⟩ | ⟨h1, h2, h3, h4⟩ | ⟨h1, h2, h3, h4⟩ | ⟨h1, h2, h3, h4⟩
      | ⟨h1, h2, h3, h4, h5⟩ | ⟨h1, h2, h3⟩
    · rw [hstore] at h3
      exact Bool.noConfusion h3
    · rw [hstore] at h4
      exact Bool.noConfusion h4
    · refine ⟨h1, ?_⟩
      intro hni
      rw [hni] at h4
      exact Bool.noConfusion h4
    · exact ⟨h1, fun _ => h2⟩
    · rw [hstore] at h5
      exact Bool.noConfusion h5
    · refine ⟨?_, fun _ => h2⟩
      rcases hs p with h | h
      · rw [h1, h]
      · rw [h] at h3
        exact Bool.noConfusion h3

/-- Demo inputs for the pipeline: a greeting from a fresh user (OTP sent),
the OTP code answered with a challenge by Resy, a direct-token OTP reply,
and an inline JWT paste. -/
def inpHello : StepInput :=
  { text := "hi", regexEmail := none, otpSend := .sms, otpRetry := .failed
    otpVerify := .rejected, registerToken := none, challengeToken := none
    envToken := "", proceedToChat := true }

def inpCode : StepInput :=
  { text := "123456", regexEmail := none, otpSend := .sms, otpRetry := .failed
    otpVerify := .challenge "claimTok" "chal1" "+15550001111" "Sam" false []
    registerToken := none, challengeToken := none, envToken := "", proceedToChat := true }

def inpToken : StepInput :=
  { text := "123456", regexEmail := none, otpSend := .sms, otpRetry := .failed
    otpVerify := .token "resy-auth-tok", registerToken := none, challengeToken := none
    envToken := "", proceedToChat := true }

def inpJWT : StepInput :=
  { text := String.mk ('e' :: 'y' :: 'J' :: List.replicate 100 'a')
    regexEmail := none, otpSend := .sms, otpRetry := .failed
    otpVerify := .rejected, registerToken := none, challengeToken := none
    envToken := "", proceedToChat := true }

def demoPhone : String := "+15550001111"

def demoChat : String := "chat1"

/-- After the greeting: user created, pending OTP armed. -/
def demoS1 : AuthDB := (processRecord emptyAuthDB demoPhone demoChat inpHello).db

/-- After the code: OTP consumed, pending challenge armed. -/
def demoS2 : AuthDB := (processRecord demoS1 demoPhone demoChat inpCode).db

/-- Witness for `pending_records_mutual_exclusion`: the invariant at the
reachable post-greeting state, the OTP-to-challenge hand-over for the
concrete code message, and the cleared pendings after a direct-token
credential store. -/
theorem pending_records_mutual_exclusion_witness :
    pendingConsistent demoS1
  ∧ ((getPendingOTP demoS1 demoPhone).isSome = true
      ∧ getPendingOTP (processRecord demoS1 demoPhone demoChat inpCode).db demoPhone = none)
  ∧ (getPendingOTP (processRecord demoS1 demoPhone demoChat inpToken).db demoPhone = none
      ∧ getPendingChallenge (processRecord demoS1 demoPhone demoChat inpToken).db demoPhone
          = none) := by
  have hreach : Reachable demoS1 :=
    Reachable.step emptyAuthDB demoPhone demoChat inpHello Reachable.init
  have hcons := pending_records_mutual_exclusion.1 demoS1 hreach
  refine ⟨hcons, ?_, ?_⟩
  · exact pending_records_mutual_exclusion.2.1 demoS1 demoPhone demoChat inpCode demoPhone
      (by decide) (by decide)
  · have h3 := pending_records_mutual_exclusion.2.2 demoS1 demoPhone demoChat inpToken
      hcons (by decide)
    exact ⟨h3.1, h3.2 (by decide)⟩

/-- Counterexample to claim C10 as stated: from the reachable state with a
pending challenge, pasting an inline JWT stores credentials but leaves the
pending challenge in place — this credential-storing path does not clear the
pending record it should correspond to. -/
theorem credstore_leaves_stale_challenge_counterexample :
    Reachable demoS2
  ∧ (processRecord demoS2 demoPhone demoChat inpJWT).storedCreds = true
  ∧ getCredentials (processRecord demoS2 demoPhone demoChat inpJWT).db demoPhone ≠ none
  ∧ getPendingChallenge (processRecord demoS2 demoPhone demoChat inpJWT).db demoPhone
      ≠ none := by
  refine ⟨?_, by decide, by decide, by decide⟩
  exact Reachable.step demoS1 demoPhone demoChat inpCode
    (Reachable.step emptyAuthDB demoPhone demoChat inpHello Reachable.init)

/-! ## Credential encryption (`src/auth/encryption.ts`)

`encrypt` returns `iv:authTag:ciphertext` (each piece base64) under
AES-256-GCM when `CREDENTIAL_ENCRYPTION_KEY` is set, and the dev fallback
`plain:<base64 JSON>` when it is not; `decrypt` inverts, honouring the
`plain:` prefix *before* looking at the key, and `createDecipheriv`/
`final` throw on authentication failure.

`node:crypto`, `Buffer` base64 and `JSON` are external collaborators,
modelled as a `CryptoModel`: abstract functions satisfying the standard
AEAD/encoding contracts (an authenticated cipher is ideal: decryption
succeeds only on honestly produced ciphertext under the same key and iv).
The random `iv` is an explicit argument. A concrete `toyCrypto` instance
witnesses the contract's satisfiability. -/

abbrev Bytes := List Nat

structure CryptoModel where
  gcmEnc : Nat → Bytes → String → Bytes × Bytes
  gcmDec : Nat → Bytes → Bytes → Bytes → Option String
  jsonEnc : BookingsCredentials → String
  jsonDec : String → Option BookingsCredentials
  b64 : Bytes → List Char
  b64dec : List Char → Bytes
  utf8enc : String → Bytes
  utf8dec : Bytes → String
  gcm_correct : ∀ k iv pt, gcmDec k iv (gcmEnc k iv pt).1 (gcmEnc k iv pt).2 = some pt
  gcm_auth : ∀ k iv ct tag pt, gcmDec k iv ct tag = some pt → gcmEnc k iv pt = (ct, tag)
  gcm_inj : ∀ k k2 iv iv2 pt pt2,
    gcmEnc k iv pt = gcmEnc k2 iv2 pt2 → k = k2 ∧ iv = iv2 ∧ pt = pt2
  json_roundtrip : ∀ c, jsonDec (jsonEnc c) = some c
  b64_roundtrip : ∀ bs, b64dec (b64 bs) = bs
  b64_no_colon : ∀ bs, ':' ∉ b64 bs
  b64_ne_plain : ∀ bs, b64 bs ≠ "plain".data
  utf8_roundtrip : ∀ s, utf8dec (utf8enc s) = s

def encrypt (M : CryptoModel) : Option Nat → Bytes → BookingsCredentials → String
  | none, _iv, data => String.mk ("plain:".data ++ M.b64 (M.utf8enc (M.jsonEnc data)))
  | some k, iv, data =>
    String.mk (M.b64 iv ++ ':' :: (M.b64 (M.gcmEnc k iv (M.jsonEnc data)).2
      ++ ':' :: M.b64 (M.gcmEnc k iv (M.jsonEnc data)).1))

def decrypt (M : CryptoModel) (key : Option Nat) (encryptedString : String) :
    Except String BookingsCredentials :=
  let cs := encryptedString.data
  if cs.take 6 = "plain:".data then
    match M.jsonDec (M.utf8dec (M.b64dec (cs.drop 6))) with
    | some c => .ok c
    | none => .error "JSON.parse failed"
  else
    match key with
    | none => .error "Cannot decrypt: CREDENTIAL_ENCRYPTION_KEY not set"
    | some k =>
      match splitChar ':' cs with
      | [ivB64, tagB64, ctB64] =>
        match M.gcmDec k (M.b64dec ivB64) (M.b64dec ctB64) (M.b64dec tagB64) with
        | some pt =>
          match M.jsonDec pt with
          | some c => .ok c
          | none => .error "JSON.parse failed"
        | none => .error "Unsupported state or unable to authenticate data"
      | _ => .error "Invalid encrypted data format"

theorem splitChar_no_sep (sep : Char) (cs : List Char) (h : sep ∉ cs) :
    splitChar sep cs = [cs] := by
  induction cs with
  | nil => rfl
  | cons c rest ih =>
    have hc : ¬(c = sep) := fun he => h (he ▸ List.mem_cons_self _ _)
    rw [splitChar, if_neg hc, ih (fun hm => h (List.mem_cons_of_mem _ hm))]

theorem splitChar_append (sep : Char) (a rest : List Char) (ha : sep ∉ a) :
    splitChar sep (a ++ sep :: rest) = a :: splitChar sep rest := by
  induction a with
  | nil => simp [splitChar]
  | cons x xs ih =>
    have hx : ¬(x = sep) := fun he => ha (he ▸ List.mem_cons_self _ _)
    rw [List.cons_append, splitChar, if_neg hx,
      ih (fun hm => ha (List.mem_cons_of_mem _ hm))]

theorem splitChar_ne_nil (sep : Char) (cs : List Char) : splitChar sep cs ≠ [] := by
  cases cs with
  | nil => exact fun h => List.noConfusion h
  | cons c rest =>
    rw [splitChar]
    by_cases hc : c = sep
    · rw [if_pos hc]
      exact fun h => List.noConfusion h
    · rw [if_neg hc]
      cases hs : splitChar sep rest with
      | nil => exact fun h => List.noConfusion h
      | cons p ps => exact fun h => List.noConfusion h

theorem splitChar_three (a b c : List Char) (ha : ':' ∉ a) (hb : ':' ∉ b) (hc : ':' ∉ c) :
    splitChar ':' (a ++ ':' :: (b ++ ':' :: c)) = [a, b, c] := by
  rw [splitChar_append ':' a _ ha, splitChar_append ':' b _ hb, splitChar_no_sep ':' c hc]

/-- Inverse of `splitChar`: re-join with the separator. -/
def joinSep (sep : Char) : List (List Char) → List Char
  | [] => []
  | [p] => p
  | p :: ps => p ++ sep :: joinSep sep ps

theorem joinSep_splitChar (sep : Char) (cs : List Char) :
    joinSep sep (splitChar sep cs) = cs := by
  induction cs with
  | nil => rfl
  | cons c rest ih =>
    rw [splitChar]
    by_cases hc : c = sep
    · rw [if_pos hc]
      cases hs : splitChar sep rest with
      | nil => exact absurd hs (splitChar_ne_nil sep rest)
      | cons p ps =>
        rw [← hs]
        have : joinSep sep ([] :: splitChar sep rest) = sep :: joinSep sep (splitChar sep rest) := by
          rw [hs]
          rfl
        rw [this, ih, hc]
    · rw [if_neg hc]
      cases hs : splitChar sep rest with
      | nil => exact absurd hs (splitChar_ne_nil sep rest)
      | cons p ps =>
        cases ps with
        | nil =>
          have : joinSep sep [c :: p] = c :: p := rfl
          rw [this]
          have hjoin : joinSep sep [p] = p := rfl
          rw [hs] at ih
          rw [hjoin] at ih
          rw [ih]
        | cons q qs =>
          have : joinSep sep ((c :: p) :: q :: qs) = (c :: p) ++ sep :: joinSep sep (q :: qs) := rfl
          rw [this]
          rw [hs] at ih
          have hjoin : joinSep sep (p :: q :: qs) = p ++ sep :: joinSep sep (q :: qs) := rfl
          rw [hjoin] at ih
          rw [List.cons_append, ih]

theorem colon_split_unique : ∀ (a a2 r r2 : List Char), ':' ∉ a → ':' ∉ a2 →
    a ++ ':' :: r = a2 ++ ':' :: r2 → a = a2 ∧ r = r2 := by
  intro a
  induction a with
  | nil =>
    intro a2 r r2 _ ha2 heq
    cases a2 with
    | nil =>
      rw [List.nil_append, List.nil_append] at heq
      exact ⟨rfl, List.cons.inj heq |>.2⟩
    | cons x xs =>
      rw [List.nil_append, List.cons_append] at heq
      obtain ⟨hx, _⟩ := List.cons.inj heq
      exact absurd (hx ▸ List.mem_cons_self x xs) ha2
  | cons x xs ih =>
    intro a2 r r2 ha ha2 heq
    cases a2 with
    | nil =>
      rw [List.nil_append, List.cons_append] at heq
      obtain ⟨hx, _⟩ := List.cons.inj heq
      exact absurd (hx ▸ List.mem_cons_self x xs) ha
    | cons y ys =>
      rw [List.cons_append, List.cons_append] at heq
      obtain ⟨hxy, htail⟩ := List.cons.inj heq
      obtain ⟨h1, h2⟩ := ih ys r r2 (fun hm => ha (List.mem_cons_of_mem _ hm))
        (fun hm => ha2 (List.mem_cons_of_mem _ hm)) htail
      exact ⟨by rw [hxy, h1], h2⟩

theorem take6_ne_plain (a rest : List Char) (ha : ':' ∉ a) (hne : a ≠ "plain".data) :
    (a ++ ':' :: rest).take 6 ≠ "plain:".data := by
  intro h
  have hdecomp : a ++ ':' :: rest
      = "plain".data ++ ':' :: ((a ++ ':' :: rest).drop 6) := by
    conv_lhs => rw [← List.take_append_drop 6 (a ++ ':' :: rest)]
    rw [h]
    rfl
  exact hne (colon_split_unique a "plain".data rest _ ha (by decide) hdecomp).1

/-- Claim C6, amended. For every credential payload:
`decrypt (encrypt payload) = payload` in both key modes; with no key
configured `encrypt` output carries the distinguishing `plain:` prefix; a
ciphertext produced under a different key fails to decrypt (throws); and
decryption under a key succeeds only on strings that either carry the
`plain:` dev prefix — which `decrypt` honours *before* consulting the key,
so a blob tampered into `plain:<base64 JSON>` form decrypts without any
authentication (see the counterexample) — or whose three components
authenticate under the configured key as an honest GCM encryption of a JSON
encoding of the returned payload. Tampering that does not produce a
`plain:`-prefixed string therefore throws, as the claim states; the `plain:`
bypass is the one exception the code forces. -/
theorem encryption_roundtrip_and_fail_closed (M : CryptoModel) :
    (∀ (k : Nat) (iv : Bytes) (c : BookingsCredentials),
        decrypt M (some k) (encrypt M (some k) iv c) = .ok c)
  ∧ (∀ (iv : Bytes) (c : BookingsCredentials),
        decrypt M none (encrypt M none iv c) = .ok c)
  ∧ (∀ (iv : Bytes) (c : BookingsCredentials),
        (encrypt M none iv c).data.take 6 = "plain:".data)
  ∧ (∀ (k k2 : Nat) (iv : Bytes) (c : BookingsCredentials), k ≠ k2 →
        ∃ e, decrypt M (some k2) (encrypt M (some k) iv c) = .error e)
  ∧ (∀ (k : Nat) (s : String) (c : BookingsCredentials),
        decrypt M (some k) s = .ok c →
        s.data.take 6 = "plain:".data
        ∨ ∃ x y z pt, s.data = x ++ ':' :: (y ++ ':' :: z)
            ∧ M.gcmEnc k (M.b64dec x) pt = (M.b64dec z, M.b64dec y)
            ∧ M.jsonDec pt = some c) := by
  have hplainshape : ∀ (iv : Bytes) (c : BookingsCredentials),
      (encrypt M none iv c).data.take 6 = "plain:".data := by
    intro iv c
    show (("plain:".data ++ M.b64 (M.utf8enc (M.jsonEnc c))).take "plain:".data.length)
      = "plain:".data
    exact List.take_left _ _
  have hkeyedshape : ∀ (k : Nat) (iv : Bytes) (c : BookingsCredentials),
      (encrypt M (some k) iv c).data
        = M.b64 iv ++ ':' :: (M.b64 (M.gcmEnc k iv (M.jsonEnc c)).2
            ++ ':' :: M.b64 (M.gcmEnc k iv (M.jsonEnc c)).1) := by
    intro k iv c
    simp only [encrypt]
  refine ⟨?_, ?_, hplainshape, ?_, ?_⟩
  · -- keyed round trip
    intro k iv c
    simp only [decrypt, hkeyedshape]
    rw [if_neg (take6_ne_plain _ _ (M.b64_no_colon iv) (M.b64_ne_plain iv))]
    rw [splitChar_three _ _ _ (M.b64_no_colon iv) (M.b64_no_colon _) (M.b64_no_colon _)]
    simp only [M.b64_roundtrip, M.gcm_correct, M.json_roundtrip]
  · -- plain round trip
    intro iv c
    simp only [decrypt]
    rw [if_pos (hplainshape iv c)]
    have hdrop : (encrypt M none iv c).data.drop 6
        = M.b64 (M.utf8enc (M.jsonEnc c)) := by
      show (("plain:".data ++ M.b64 (M.utf8enc (M.jsonEnc c))).drop "plain:".data.length)
        = M.b64 (M.utf8enc (M.jsonEnc c))
      exact List.drop_left _ _
    rw [hdrop, M.b64_roundtrip, M.utf8_roundtrip, M.json_roundtrip]
  · -- wrong key fails
    intro k k2 iv c hk
    simp only [decrypt, hkeyedshape]
    rw [if_neg (take6_ne_plain _ _ (M.b64_no_colon iv) (M.b64_ne_plain iv))]
    rw [splitChar_three _ _ _ (M.b64_no_colon iv) (M.b64_no_colon _) (M.b64_no_colon _)]
    simp only [M.b64_roundtrip]
    cases hdec : M.gcmDec k2 iv (M.gcmEnc k iv (M.jsonEnc c)).1 (M.gcmEnc k iv (M.jsonEnc c)).2 with
    | none => exact ⟨_, rfl⟩
    | some pt =>
      have hauth := M.gcm_auth _ _ _ _ _ hdec
      rw [show ((M.gcmEnc k iv (M.jsonEnc c)).1, (M.gcmEnc k iv (M.jsonEnc c)).2)
          = M.gcmEnc k iv (M.jsonEnc c) from rfl] at hauth
      exact absurd (M.gcm_inj _ _ _ _ _ _ hauth).1.symm hk
  · -- authenticated-success characterization
    intro k s c hok
    by_cases hp : s.data.take 6 = "plain:".data
    · exact Or.inl hp
    · right
      simp only [decrypt] at hok
      rw [if_neg hp] at hok
      cases hsplit : splitChar ':' s.data with
      | nil => exact absurd hsplit (splitChar_ne_nil ':' s.data)
      | cons x t1 =>
        cases t1 with
        | nil =>
          rw [hsplit] at hok
          exact Except.noConfusion hok
        | cons y t2 =>
          cases t2 with
          | nil =>
            rw [hsplit] at hok
            exact Except.noConfusion hok
          | cons z t3 =>
            cases t3 with
            | cons w t4 =>
              rw [hsplit] at hok
              exact Except.noConfusion hok
            | nil =>
              rw [hsplit] at hok
              have hshape : s.data = x ++ ':' :: (y ++ ':' :: z) := by
                have hjoin := joinSep_splitChar ':' s.data
                rw [hsplit] at hjoin
                exact hjoin.symm
              have hok2 : (match M.gcmDec k (M.b64dec x) (M.b64dec z) (M.b64dec y) with
                  | some pt =>
                    match M.jsonDec pt with
                    | some c3 => Except.ok c3
                    | none => (Except.error "JSON.parse failed" :
                        Except String BookingsCredentials)
                  | none => Except.error "Unsupported state or unable to authenticate data")
                  = Except.ok c := hok
              cases hdec : M.gcmDec k (M.b64dec x) (M.b64dec z) (M.b64dec y) with
              | none =>
                rw [hdec] at hok2
                exact Except.noConfusion hok2
              | some pt =>
                rw [hdec] at hok2
                have hok3 : (match M.jsonDec pt with
                    | some c3 => Except.ok c3
                    | none => (Except.error "JSON.parse failed" :
                        Except String BookingsCredentials))
                    = Except.ok c := hok2
                cases hjson : M.jsonDec pt with
                | none =>
                  rw [hjson] at hok3
                  exact Except.noConfusion hok3
                | some c2 =>
                  rw [hjson] at hok3
                  have hc : c2 = c := by
                    cases hok3
                    rfl
                  exact ⟨x, y, z, pt, hshape, M.gcm_auth _ _ _ _ _ hdec,
                    by rw [hjson, hc]⟩

/-! A concrete (idealized) crypto model, used to instantiate
`encryption_roundtrip_and_fail_closed` and to exhibit the `plain:` bypass
on an explicit forged blob. -/

def toyB64 (bs : Bytes) : List Char :=
  bs.flatMap (fun b => List.replicate b 'a' ++ ['x'])

def toyB64DecGo : List Char → Nat → Bytes
  | [], _ => []
  | c :: rest, acc => if c = 'x' then acc :: toyB64DecGo rest 0 else toyB64DecGo rest (acc + 1)

def toyB64Dec (cs : List Char) : Bytes := toyB64DecGo cs 0

theorem toyB64DecGo_replicate (n : Nat) (t : List Char) (acc : Nat) :
    toyB64DecGo (List.replicate n 'a' ++ 'x' :: t) acc = (acc + n) :: toyB64DecGo t 0 := by
  induction n generalizing acc with
  | zero => simp [toyB64DecGo]
  | succ n ih =>
    rw [List.replicate_succ, List.cons_append, toyB64DecGo, if_neg (by decide), ih]
    have harith : acc + 1 + n = acc + (n + 1) := by omega
    rw [harith]

theorem toyB64_roundtrip (bs : Bytes) : toyB64Dec (toyB64 bs) = bs := by
  induction bs with
  | nil => rfl
  | cons b rest ih =>
    rw [toyB64, List.flatMap_cons, List.append_assoc, List.singleton_append]
    rw [toyB64Dec, toyB64DecGo_replicate]
    rw [show toyB64DecGo (rest.flatMap (fun b => List.replicate b 'a' ++ ['x'])) 0
        = toyB64Dec (toyB64 rest) from rfl, ih]
    rw [Nat.zero_add]

theorem toyB64_chars (bs : Bytes) (c : Char) (hc : c ∈ toyB64 bs) : c = 'a' ∨ c = 'x' := by
  rw [toyB64, List.mem_flatMap] at hc
  obtain ⟨b, _, hc⟩ := hc
  rcases List.mem_append.mp hc with h | h
  · exact Or.inl (List.eq_of_mem_replicate h)
  · exact Or.inr (List.mem_singleton.mp h)

theorem toyB64_no_colon (bs : Bytes) : ':' ∉ toyB64 bs := by
  intro h
  rcases toyB64_chars bs ':' h with h | h <;> exact absurd h (by decide)

theorem toyB64_ne_plain (bs : Bytes) : toyB64 bs ≠ "plain".data := by
  intro h
  have hp : 'p' ∈ toyB64 bs := by
    rw [h]
    decide
  rcases toyB64_chars bs 'p' hp with h | h <;> exact absurd h (by decide)

def toyUtf8 (s : String) : Bytes := s.data.map Char.toNat

def toyUtf8Dec (bs : Bytes) : String := String.mk (bs.map Char.ofNat)

theorem toyUtf8_roundtrip (s : String) : toyUtf8Dec (toyUtf8 s) = s := by
  rw [toyUtf8, toyUtf8Dec, List.map_map]
  have hmap : ∀ l : List Char, l.map (Char.ofNat ∘ Char.toNat) = l := by
    intro l
    induction l with
    | nil => rfl
    | cons c cs ih => simp [Function.comp, Char.ofNat_toNat, ih]
  rw [hmap]

theorem toyUtf8_inj (s t : String) (h : toyUtf8 s = toyUtf8 t) : s = t := by
  have := congrArg toyUtf8Dec h
  rwa [toyUtf8_roundtrip, toyUtf8_roundtrip] at this

/-- Idealized authentication tag: an injective encoding of key, iv and
plaintext. -/
def tagEncode (k : Nat) (iv : Bytes) (pt : String) : Bytes :=
  k :: iv.length :: (iv ++ toyUtf8 pt)

theorem tagEncode_inj (k k2 : Nat) (iv iv2 : Bytes) (pt pt2 : String)
    (h : tagEncode k iv pt = tagEncode k2 iv2 pt2) :
    k = k2 ∧ iv = iv2 ∧ pt = pt2 := by
  rw [tagEncode, tagEncode] at h
  obtain ⟨hk, h⟩ := List.cons.inj h
  obtain ⟨hlen, h⟩ := List.cons.inj h
  obtain ⟨hiv, hpt⟩ := List.append_inj h hlen
  exact ⟨hk, hiv, toyUtf8_inj _ _ hpt⟩

def toyGcmEnc (k : Nat) (iv : Bytes) (pt : String) : Bytes × Bytes :=
  (toyUtf8 pt, tagEncode k iv pt)

def toyGcmDec (k : Nat) (iv : Bytes) (ct : Bytes) (tag : Bytes) : Option String :=
  if ct = toyUtf8 (toyUtf8Dec ct) ∧ tag = tagEncode k iv (toyUtf8Dec ct) then
    some (toyUtf8Dec ct)
  else none

def toyCrypto : CryptoModel where
  gcmEnc := toyGcmEnc
  gcmDec := toyGcmDec
  jsonEnc := fun c => c.resyAuthToken
  jsonDec := fun s => some { resyAuthToken := s }
  b64 := toyB64
  b64dec := toyB64Dec
  utf8enc := toyUtf8
  utf8dec := toyUtf8Dec
  gcm_correct := by
    intro k iv pt
    rw [toyGcmEnc, toyGcmDec]
    rw [if_pos]
    · rw [toyUtf8_roundtrip]
    · rw [toyUtf8_roundtrip]
      exact ⟨rfl, rfl⟩
  gcm_auth := by
    intro k iv ct tag pt hdec
    rw [toyGcmDec] at hdec
    by_cases hcond : ct = toyUtf8 (toyUtf8Dec ct) ∧ tag = tagEncode k iv (toyUtf8Dec ct)
    · rw [if_pos hcond] at hdec
      obtain ⟨hct, htag⟩ := hcond
      have hpt : toyUtf8Dec ct = pt := Option.some.inj hdec
      rw [toyGcmEnc, ← hpt, ← hct, ← htag]
    · rw [if_neg hcond] at hdec
      exact Option.noConfusion hdec
  gcm_inj := by
    intro k k2 iv iv2 pt pt2 h
    rw [toyGcmEnc, toyGcmEnc] at h
    obtain ⟨_, htag⟩ := Prod.mk.inj h
    obtain ⟨hk, hiv, hpt⟩ := tagEncode_inj _ _ _ _ _ _ htag
    exact ⟨hk, hiv, hpt⟩
  json_roundtrip := fun _ => rfl
  b64_roundtrip := toyB64_roundtrip
  b64_no_colon := toyB64_no_colon
  b64_ne_plain := toyB64_ne_plain
  utf8_roundtrip := toyUtf8_roundtrip

/-- Witness for `encryption_roundtrip_and_fail_closed` on the concrete
model: round trips under key `7` and with no key, the `plain:` prefix, and
wrong-key (`8`) failure. -/
theorem encryption_roundtrip_and_fail_closed_witness :
    decrypt toyCrypto (some 7) (encrypt toyCrypto (some 7) [1, 2] ⟨"tok"⟩) = .ok ⟨"tok"⟩
  ∧ decrypt toyCrypto none (encrypt toyCrypto none [] ⟨"tok"⟩) = .ok ⟨"tok"⟩
  ∧ (encrypt toyCrypto none [] ⟨"tok"⟩).data.take 6 = "plain:".data
  ∧ ∃ e, decrypt toyCrypto (some 8) (encrypt toyCrypto (some 7) [1, 2] ⟨"tok"⟩)
      = .error e := by
  have h := encryption_roundtrip_and_fail_closed toyCrypto
  exact ⟨h.1 7 [1, 2] ⟨"tok"⟩, h.2.1 [] ⟨"tok"⟩, h.2.2.1 [] ⟨"tok"⟩,
    h.2.2.2.1 7 8 [1, 2] ⟨"tok"⟩ (by decide)⟩

/-- A blob an attacker (with no key) can write into credential storage:
the dev `plain:` encoding of an attacker-chosen payload. -/
def forgedBlob : String :=
  String.mk ("plain:".data ++ toyB64 (toyUtf8 "stolen"))

/-- Counterexample to claim C6 as stated: with an encryption key configured
(`some 0`), decrypting the tampered/forged blob — which is *not* an honest
ciphertext under that key — does not throw; it returns a valid-looking
credential object chosen by the forger, because `decrypt` honours the
`plain:` dev prefix before any authentication. -/
theorem decrypt_tampered_plain_counterexample :
    decrypt toyCrypto (some 0) forgedBlob = .ok { resyAuthToken := "stolen" }
  ∧ ¬ ∃ (iv : Bytes) (c : BookingsCredentials),
      forgedBlob = encrypt toyCrypto (some 0) iv c := by
  constructor
  · have hdata : forgedBlob.data = "plain:".data ++ toyB64 (toyUtf8 "stolen") := rfl
    rw [decrypt]
    rw [if_pos (show forgedBlob.data.take 6 = "plain:".data by
      rw [hdata]
      show ("plain:".data ++ toyB64 (toyUtf8 "stolen")).take "plain:".data.length
        = "plain:".data
      exact List.take_left _ _)]
    rw [show forgedBlob.data.drop 6 = toyB64 (toyUtf8 "stolen") from
      List.drop_left "plain:".data (toyB64 (toyUtf8 "stolen"))]
    rw [show toyCrypto.b64dec (toyB64 (toyUtf8 "stolen")) = toyUtf8 "stolen" from
      toyB64_roundtrip _]
    rw [show toyCrypto.utf8dec (toyUtf8 "stolen") = "stolen" from toyUtf8_roundtrip _]
    rfl
  · rintro ⟨iv, c, h⟩
    have hh : (some 'p' : Option Char) = (encrypt toyCrypto (some 0) iv c).data.head? := by
      rw [← h]
      rfl
    have hr : (encrypt toyCrypto (some 0) iv c).data
        = toyB64 iv ++ ':' :: (toyCrypto.b64 (toyGcmEnc 0 iv (toyCrypto.jsonEnc c)).2
            ++ ':' :: toyCrypto.b64 (toyGcmEnc 0 iv (toyCrypto.jsonEnc c)).1) := by
      simp only [encrypt]
      rfl
    rw [hr] at hh
    cases hiv : toyB64 iv with
    | nil =>
      rw [hiv] at hh
      simp only [List.nil_append, List.head?_cons, Option.some.injEq] at hh
      exact absurd hh (by decide)
    | cons c0 cs0 =>
      rw [hiv] at hh
      simp only [List.cons_append, List.head?_cons, Option.some.injEq] at hh
      have hmem : c0 ∈ toyB64 iv := by
        rw [hiv]
        exact List.mem_cons_self _ _
      rcases toyB64_chars iv c0 hmem with h1 | h1 <;>
        rw [← hh] at h1 <;> exact absurd h1 (by decide)

end ResyAgent
